import Mathlib

/-!
Verification of the BriarBot request-handling and resilience subsystem.

Shallow embedding of:
- the `RateLimiter` / circuit breaker (src/unnamed/part_007, first module:
  `updateApiHealth`, `checkCircuitBreaker`, `adaptStrategy`, `shouldAttemptRequest`,
  the health-updating side of `calculateDelay`);
- the upstream fetch `getPopularBuilds` (src/src/briar-bot.js lines 596-897), including
  the `validateStatus` predicate of its axios configuration;
- the request deduplication layer `getHeroWithDeduplication` (briar-bot.js lines 313-383);
- the command queue (`addToQueue` / `processQueue` / `processCommand` and the
  message-handler admission path, briar-bot.js);
- the persistent cache (`CacheManager`, src/src/cache-manager.js).

Machine integers are modelled as `Nat` (the JS values involved are small positive
numbers and timestamps; no overflow is reachable), `Math.random()` outcomes and rational
thresholds are modelled as numerator/denominator pairs compared by cross-multiplication,
and JS `null` / `undefined` / numeric status codes are modelled by an explicit inductive.
-/

namespace BriarBot

/-- A JS status-code value as observed by `RateLimiter.updateApiHealth`:
`null` (the default parameter of `calculateDelay`, and an explicit success marker),
`undefined` (`error.response?.status` of a network error), or a number. -/
inductive SCode where
  | jnull : SCode
  | jundef : SCode
  | code : Nat → SCode
deriving DecidableEq

/-- JS truthiness of a status-code value: `undefined` and `null` are falsy,
a number is falsy exactly when it is `0`. Used for the `!status` test in the
catch block of `getPopularBuilds`. -/
def scodeFalsy : SCode → Bool
  | SCode.jnull => true
  | SCode.jundef => true
  | SCode.code n => n == 0

/-- The `config` object of `RateLimiter` (part_007 constructor). The probe chance and
the success-rate threshold are stored as numerator/denominator pairs. -/
structure RLConfig where
  maxRetries : Nat
  baseDelay : Nat
  maxDelay : Nat
  backoffMultiplier : Nat
  circuitBreakerThreshold : Nat
  circuitBreakerResetTime : Nat
  probeChanceNum : Nat
  probeChanceDen : Nat
  successRateThresholdNum : Nat
  successRateThresholdDen : Nat
deriving DecidableEq

/-- The `apiHealth` state of `RateLimiter`. -/
structure ApiHealth where
  consecutive403s : Nat
  consecutive429s : Nat
  totalRequests : Nat
  successfulRequests : Nat
  lastSuccessTime : Nat
  windowStart : Nat
  requestsThisWindow : Nat
  windowSize : Nat
deriving DecidableEq

/-- The `circuitBreaker` state of `RateLimiter`. `openedAt` is only meaningful while
the breaker is (or has been) open; the JS `null` initial value is modelled as `0`. -/
structure CircuitBreakerState where
  isOpen : Bool
  isHalfOpen : Bool
  openedAt : Nat
  failureCount : Nat
  halfOpenSuccesses : Nat
  halfOpenAttempts : Nat
deriving DecidableEq

/-- The named backoff strategies of `RateLimiter`. -/
inductive Strategy where
  | gentle : Strategy
  | moderate : Strategy
  | aggressive : Strategy
  | stealth : Strategy
  | circuitBreakerMode : Strategy
deriving DecidableEq

/-- The whole `RateLimiter` instance state. -/
structure RateLimiter where
  config : RLConfig
  apiHealth : ApiHealth
  circuitBreaker : CircuitBreakerState
  currentStrategy : Strategy
deriving DecidableEq

/-- `RateLimiter.checkCircuitBreaker`: open the breaker when the failure counter has
reached the threshold (also forcing the `circuit_breaker` strategy), then move an open
breaker to half-open once the reset time has elapsed since it opened. -/
def checkCircuitBreaker (rl : RateLimiter) (now : Nat) : RateLimiter :=
  let rl1 :=
    if rl.circuitBreaker.isOpen = false ∧ rl.circuitBreaker.isHalfOpen = false ∧
        rl.config.circuitBreakerThreshold ≤ rl.circuitBreaker.failureCount then
      { rl with
        circuitBreaker := { rl.circuitBreaker with isOpen := true, openedAt := now },
        currentStrategy := Strategy.circuitBreakerMode }
    else rl
  if rl1.circuitBreaker.isOpen = true ∧ rl1.circuitBreaker.isHalfOpen = false ∧
      rl1.config.circuitBreakerResetTime < now - rl1.circuitBreaker.openedAt then
    { rl1 with
      circuitBreaker := { rl1.circuitBreaker with
        isOpen := false, isHalfOpen := true, halfOpenSuccesses := 0, halfOpenAttempts := 0 } }
  else rl1

/-- `successRate < bound` where `successRate = total > 0 ? succ / total : 0` and the
bound is `num / den`, compared by cross-multiplication (`den > 0` in every config). -/
def successRateLt (succ total num den : Nat) : Prop :=
  if total = 0 then 0 < num else succ * den < num * total

/-- `successRate > 0.8` under the same convention. -/
def successRateGt80 (succ total : Nat) : Prop :=
  if total = 0 then False else 8 * total < 10 * succ

instance (succ total num den : Nat) : Decidable (successRateLt succ total num den) := by
  unfold successRateLt; infer_instance

instance (succ total : Nat) : Decidable (successRateGt80 succ total) := by
  unfold successRateGt80; infer_instance

/-- `RateLimiter.adaptStrategy`: re-select the active strategy from the health metrics;
an open breaker always forces the `circuit_breaker` strategy. -/
def adaptStrategy (rl : RateLimiter) (now : Nat) : RateLimiter :=
  if rl.circuitBreaker.isOpen = true then
    { rl with currentStrategy := Strategy.circuitBreakerMode }
  else
    let h := rl.apiHealth
    let strat :=
      if 5 ≤ h.consecutive403s then Strategy.stealth
      else if 3 ≤ h.consecutive429s then Strategy.gentle
      else if successRateLt h.successfulRequests h.totalRequests
          rl.config.successRateThresholdNum rl.config.successRateThresholdDen then
        Strategy.moderate
      else if now - h.lastSuccessTime < 30000 ∧
          successRateGt80 h.successfulRequests h.totalRequests then
        Strategy.aggressive
      else Strategy.moderate
    { rl with currentStrategy := strat }

/-- The request/window tally at the top of `RateLimiter.updateApiHealth`:
`totalRequests++`, reset the rolling window when `now - windowStart > windowSize`,
then `requestsThisWindow++`. -/
def tallyRequest (rl : RateLimiter) (now : Nat) : RateLimiter :=
  let h0 : ApiHealth := rl.apiHealth
  let h1 : ApiHealth := { h0 with totalRequests := h0.totalRequests + 1 }
  let h2 :=
    if h1.windowSize < now - h1.windowStart then
      { h1 with windowStart := now, requestsThisWindow := 0 }
    else h1
  let h3 : ApiHealth := { h2 with requestsThisWindow := h2.requestsThisWindow + 1 }
  { rl with apiHealth := h3 }

/-- The outcome classification in the middle of `RateLimiter.updateApiHealth`:
`200`/`null` is a success (resets both consecutive counters, counts the success,
and performs the half-open bookkeeping), `403`/`429` increments its class counter and
the shared breaker failure counter (reopening a half-open breaker), and every other
value is neutral. -/
def applyOutcome (rl : RateLimiter) (sc : SCode) (now : Nat) : RateLimiter :=
  if sc = SCode.code 200 ∨ sc = SCode.jnull then
    let hS : ApiHealth := { rl.apiHealth with
      successfulRequests := rl.apiHealth.successfulRequests + 1,
      lastSuccessTime := now, consecutive403s := 0, consecutive429s := 0 }
    let rlS : RateLimiter := { rl with apiHealth := hS }
    if rlS.circuitBreaker.isHalfOpen = true then
      let cb : CircuitBreakerState := { rlS.circuitBreaker with
        halfOpenSuccesses := rlS.circuitBreaker.halfOpenSuccesses + 1,
        halfOpenAttempts := rlS.circuitBreaker.halfOpenAttempts + 1 }
      if 3 ≤ cb.halfOpenSuccesses then
        { rlS with circuitBreaker := { cb with
            isOpen := false, isHalfOpen := false, failureCount := 0,
            halfOpenSuccesses := 0, halfOpenAttempts := 0 } }
      else
        { rlS with circuitBreaker := cb }
    else
      { rlS with circuitBreaker := { rlS.circuitBreaker with failureCount := 0 } }
  else if sc = SCode.code 403 ∨ sc = SCode.code 429 then
    let hF :=
      if sc = SCode.code 403 then
        { rl.apiHealth with consecutive403s := rl.apiHealth.consecutive403s + 1 }
      else
        { rl.apiHealth with consecutive429s := rl.apiHealth.consecutive429s + 1 }
    let rlF := { rl with
      apiHealth := hF,
      circuitBreaker := { rl.circuitBreaker with
        failureCount := rl.circuitBreaker.failureCount + 1 } }
    if rlF.circuitBreaker.isHalfOpen = true then
      { rlF with circuitBreaker := { rlF.circuitBreaker with
          isHalfOpen := false, isOpen := true, openedAt := now,
          halfOpenSuccesses := 0, halfOpenAttempts := 0 } }
    else rlF
  else rl

/-- `RateLimiter.updateApiHealth(statusCode)`: tally the request and the rolling window,
classify the outcome, then run `checkCircuitBreaker` and `adaptStrategy`. -/
def updateApiHealth (rl : RateLimiter) (sc : SCode) (now : Nat) : RateLimiter :=
  adaptStrategy (checkCircuitBreaker (applyOutcome (tallyRequest rl now) sc now) now) now

/-- The `{ allowed, reason }` object returned by `shouldAttemptRequest`. -/
structure AttemptGate where
  allowed : Bool
  reason : String
deriving DecidableEq

/-- `RateLimiter.shouldAttemptRequest()`: when the breaker is open, allow only the
random fraction `Math.random() < probeChance` through as probes; when half-open or
closed, always allow. The `Math.random()` draw is the fraction `randNum / randDen`. -/
def shouldAttemptRequest (rl : RateLimiter) (randNum randDen : Nat) : AttemptGate :=
  if rl.circuitBreaker.isOpen = true then
    let allowed : Bool :=
      decide (randNum * rl.config.probeChanceDen < rl.config.probeChanceNum * randDen)
    { allowed := allowed,
      reason := if allowed then "circuit-breaker-probe" else "circuit-breaker-open" }
  else if rl.circuitBreaker.isHalfOpen = true then
    { allowed := true, reason := "circuit-breaker-half-open" }
  else
    { allowed := true, reason := "healthy" }

/-- The state effect of `RateLimiter.calculateDelay(retryCount, statusCode = null)`:
before computing the (randomized) numeric delay it calls
`this.updateApiHealth(statusCode)`, and every call site in `getPopularBuilds` omits
`statusCode`, so the default `null` is recorded — which `updateApiHealth` classifies
as a success. The numeric delay itself is irrelevant to the claims. -/
def calculateDelayHealthEffect (rl : RateLimiter) (sc : SCode) (now : Nat) : RateLimiter :=
  updateApiHealth rl sc now

/-- Breaker in the `closed` state. -/
def cbClosed (rl : RateLimiter) : Prop :=
  rl.circuitBreaker.isOpen = false ∧ rl.circuitBreaker.isHalfOpen = false

/-- Breaker in the `open` state. -/
def cbOpen (rl : RateLimiter) : Prop :=
  rl.circuitBreaker.isOpen = true ∧ rl.circuitBreaker.isHalfOpen = false

/-- Breaker in the `half-open` state. -/
def cbHalfOpen (rl : RateLimiter) : Prop :=
  rl.circuitBreaker.isOpen = false ∧ rl.circuitBreaker.isHalfOpen = true

/-- A status code of one of the two breaker failure classes (`403` forbidden,
`429` rate-limited). -/
def isFailureCode (sc : SCode) : Prop :=
  sc = SCode.code 403 ∨ sc = SCode.code 429

/-- The outcome of one physical upstream call: an HTTP response with a status and a
body that either does or does not contain an array of build records (build records are
abstracted to numeric identifiers), or a network error (no response at all). -/
inductive UpOutcome where
  | httpResp : Nat → Option (List Nat) → UpOutcome
  | netErr : UpOutcome
deriving DecidableEq

/-- How the axios call in `getPopularBuilds` settles, per the `validateStatus`
predicate configured right there in the source
(`validateStatus: (status) => status >= 200 && status < 500`): a response whose status
satisfies `200 ≤ s < 500` resolves the promise with the response; any other status
rejects with `error.response.status = s`; a network error rejects with
`error.response?.status = undefined`. `Sum.inl` is a resolved body, `Sum.inr` the
rejection's status value. -/
def axiosSettle (o : UpOutcome) : Sum (Option (List Nat)) SCode :=
  match o with
  | UpOutcome.httpResp s b => if 200 ≤ s ∧ s < 500 then Sum.inl b else Sum.inr (SCode.code s)
  | UpOutcome.netErr => Sum.inr SCode.jundef

/-- The observable result of one `getPopularBuilds` run: the returned `data` array,
the rate limiter state afterwards, how many times the upstream was actually called
(`requestCounter` increments), and how many backoff delays were computed
(`calculateDelay` invocations). -/
structure FetchRun where
  result : List Nat
  rl : RateLimiter
  upstreamCalls : Nat
  delaysComputed : Nat
deriving DecidableEq

/-- `getPopularBuilds(heroName, retryCount)` (briar-bot.js lines 596-897), with the
environment's successive upstream outcomes supplied as the list `outcomes` (one entry
per physical upstream call; an empty list means the environment is exhausted and the
model stops, which no theorem relies on). Control flow follows the source:

* the opening guard is `if (!rateLimiter.shouldAttemptRequest())`; the function returns
  an `{allowed, reason}` object and a JS object is always truthy, so the negation is
  always false and the early return is never taken — the gate value is discarded;
* on a retry (`retryCount > 0`) it awaits `calculateDelay(retryCount - 1)`, whose
  omitted `statusCode` parameter defaults to `null` and is recorded through
  `updateApiHealth` as a success;
* the axios call settles per `axiosSettle`. A resolved response extracts the build
  array (empty when the body has none) and records `updateApiHealth(200)`. A rejection
  records `updateApiHealth(status)`; `404` returns an empty result immediately;
  `403`, `429` and falsy status (network error) recurse while
  `retryCount < config.maxRetries`; anything else returns an empty result.

The function is total: every source path returns a value, and the enclosing
try/catch converts any rejection into a return, so no exception escapes. -/
def getPopularBuilds (rl : RateLimiter) (outcomes : List UpOutcome) (now : Nat)
    (retryCount : Nat) : FetchRun :=
  let rl1 := if retryCount ≠ 0 then calculateDelayHealthEffect rl SCode.jnull now else rl
  let delays1 : Nat := if retryCount ≠ 0 then 1 else 0
  match outcomes with
  | [] => { result := [], rl := rl1, upstreamCalls := 0, delaysComputed := delays1 }
  | o :: rest =>
    match axiosSettle o with
    | Sum.inl body =>
      { result := body.getD [],
        rl := updateApiHealth rl1 (SCode.code 200) now,
        upstreamCalls := 1, delaysComputed := delays1 }
    | Sum.inr st =>
      let rl2 := updateApiHealth rl1 st now
      if st = SCode.code 404 then
        { result := [], rl := rl2, upstreamCalls := 1, delaysComputed := delays1 }
      else if (st = SCode.code 403 ∨ st = SCode.code 429 ∨ scodeFalsy st = true) ∧
          retryCount < rl2.config.maxRetries then
        let r := getPopularBuilds rl2 rest now (retryCount + 1)
        { result := r.result, rl := r.rl, upstreamCalls := 1 + r.upstreamCalls,
          delaysComputed := delays1 + r.delaysComputed }
      else
        { result := [], rl := rl2, upstreamCalls := 1, delaysComputed := delays1 }

/-- A fresh `apiHealth` record as built by the `RateLimiter` constructor at time `t0`. -/
def freshHealth (t0 : Nat) : ApiHealth :=
  { consecutive403s := 0, consecutive429s := 0, totalRequests := 0,
    successfulRequests := 0, lastSuccessTime := t0, windowStart := t0,
    requestsThisWindow := 0, windowSize := 60000 }

/-- A fresh circuit-breaker record as built by the constructor. -/
def freshBreaker : CircuitBreakerState :=
  { isOpen := false, isHalfOpen := false, openedAt := 0, failureCount := 0,
    halfOpenSuccesses := 0, halfOpenAttempts := 0 }

/-- The configuration the bot constructs its `RateLimiter` with
(briar-bot.js lines 108-115), except that `maxRetries` is a parameter so the
"retry cap of 5" runs of the spec can be expressed. -/
def botConfig (maxRetries : Nat) : RLConfig :=
  { maxRetries := maxRetries, baseDelay := 1000, maxDelay := 300000,
    backoffMultiplier := 2, circuitBreakerThreshold := 15,
    circuitBreakerResetTime := 900000, probeChanceNum := 3, probeChanceDen := 10,
    successRateThresholdNum := 1, successRateThresholdDen := 10 }

/-- A freshly constructed `RateLimiter` with the bot's configuration. -/
def freshLimiter (maxRetries : Nat) (t0 : Nat) : RateLimiter :=
  { config := botConfig maxRetries, apiHealth := freshHealth t0,
    circuitBreaker := freshBreaker, currentStrategy := Strategy.moderate }

/-- A limiter whose circuit breaker is open (15 recorded failures reached the bot's
threshold of 15, opening at time 0). -/
def openLimiter : RateLimiter :=
  { config := botConfig 12,
    apiHealth := { freshHealth 0 with consecutive429s := 15 },
    circuitBreaker := { isOpen := true, isHalfOpen := false, openedAt := 0,
                        failureCount := 15, halfOpenSuccesses := 0, halfOpenAttempts := 0 },
    currentStrategy := Strategy.circuitBreakerMode }

example : (shouldAttemptRequest openLimiter 1 2).allowed = false := by decide

example :
    (getPopularBuilds openLimiter [UpOutcome.httpResp 429 none] 0 0).upstreamCalls = 1 := by
  decide

example :
    (getPopularBuilds (freshLimiter 5 0) [UpOutcome.httpResp 429 none] 0 0).upstreamCalls
      = 1 := by decide

example :
    (getPopularBuilds (freshLimiter 5 0)
      (List.replicate 6 (UpOutcome.httpResp 429 none)) 0 0).rl.apiHealth.consecutive429s
      = 0 := by decide

theorem adaptStrategy_circuitBreaker (rl : RateLimiter) (now : Nat) :
    (adaptStrategy rl now).circuitBreaker = rl.circuitBreaker := by
  unfold adaptStrategy; split <;> rfl

theorem adaptStrategy_apiHealth (rl : RateLimiter) (now : Nat) :
    (adaptStrategy rl now).apiHealth = rl.apiHealth := by
  unfold adaptStrategy; split <;> rfl

theorem adaptStrategy_config (rl : RateLimiter) (now : Nat) :
    (adaptStrategy rl now).config = rl.config := by
  unfold adaptStrategy; split <;> rfl

theorem checkCircuitBreaker_apiHealth (rl : RateLimiter) (now : Nat) :
    (checkCircuitBreaker rl now).apiHealth = rl.apiHealth := by
  unfold checkCircuitBreaker
  dsimp only
  split <;> split <;> rfl

theorem checkCircuitBreaker_config (rl : RateLimiter) (now : Nat) :
    (checkCircuitBreaker rl now).config = rl.config := by
  unfold checkCircuitBreaker
  dsimp only
  split <;> split <;> rfl

theorem checkCircuitBreaker_failureCount (rl : RateLimiter) (now : Nat) :
    (checkCircuitBreaker rl now).circuitBreaker.failureCount
      = rl.circuitBreaker.failureCount := by
  unfold checkCircuitBreaker
  dsimp only
  split <;> split <;> rfl

theorem tallyRequest_config (rl : RateLimiter) (now : Nat) :
    (tallyRequest rl now).config = rl.config := by
  simp only [tallyRequest]

theorem tallyRequest_circuitBreaker (rl : RateLimiter) (now : Nat) :
    (tallyRequest rl now).circuitBreaker = rl.circuitBreaker := by
  simp only [tallyRequest]

theorem applyOutcome_config (rl : RateLimiter) (sc : SCode) (now : Nat) :
    (applyOutcome rl sc now).config = rl.config := by
  simp only [applyOutcome]
  repeat' split
  all_goals rfl

theorem updateApiHealth_config (rl : RateLimiter) (sc : SCode) (now : Nat) :
    (updateApiHealth rl sc now).config = rl.config := by
  unfold updateApiHealth
  rw [adaptStrategy_config, checkCircuitBreaker_config, applyOutcome_config,
    tallyRequest_config]

theorem updateApiHealth_apiHealth (rl : RateLimiter) (sc : SCode) (now : Nat) :
    (updateApiHealth rl sc now).apiHealth
      = (applyOutcome (tallyRequest rl now) sc now).apiHealth := by
  unfold updateApiHealth
  rw [adaptStrategy_apiHealth, checkCircuitBreaker_apiHealth]

theorem tallyRequest_counters (rl : RateLimiter) (now : Nat) :
    (tallyRequest rl now).apiHealth.consecutive403s = rl.apiHealth.consecutive403s ∧
    (tallyRequest rl now).apiHealth.consecutive429s = rl.apiHealth.consecutive429s ∧
    (tallyRequest rl now).apiHealth.successfulRequests = rl.apiHealth.successfulRequests := by
  simp only [tallyRequest]
  split <;> exact ⟨rfl, rfl, rfl⟩

theorem applyOutcome_success_breaker (rl : RateLimiter) (sc : SCode) (now : Nat)
    (hs : sc = SCode.code 200 ∨ sc = SCode.jnull)
    (hh : rl.circuitBreaker.isHalfOpen = false) :
    (applyOutcome rl sc now).circuitBreaker
      = { rl.circuitBreaker with failureCount := 0 } := by
  simp only [applyOutcome, if_pos hs]
  simp [hh]

theorem applyOutcome_failure_breaker (rl : RateLimiter) (sc : SCode) (now : Nat)
    (hf : isFailureCode sc) (hh : rl.circuitBreaker.isHalfOpen = false) :
    (applyOutcome rl sc now).circuitBreaker
      = { rl.circuitBreaker with failureCount := rl.circuitBreaker.failureCount + 1 } := by
  rcases hf with h | h <;> subst h <;> simp [applyOutcome, hh]

theorem applyOutcome_failure_halfOpen_breaker (rl : RateLimiter) (sc : SCode) (now : Nat)
    (hf : isFailureCode sc) (hh : rl.circuitBreaker.isHalfOpen = true) :
    (applyOutcome rl sc now).circuitBreaker
      = { rl.circuitBreaker with
          isOpen := true, isHalfOpen := false, openedAt := now,
          failureCount := rl.circuitBreaker.failureCount + 1,
          halfOpenSuccesses := 0, halfOpenAttempts := 0 } := by
  rcases hf with h | h <;> subst h <;> simp [applyOutcome, hh]

theorem applyOutcome_neutral (rl : RateLimiter) (sc : SCode) (now : Nat)
    (hs : ¬(sc = SCode.code 200 ∨ sc = SCode.jnull)) (hf : ¬isFailureCode sc) :
    applyOutcome rl sc now = rl := by
  have hf2 : ¬(sc = SCode.code 403 ∨ sc = SCode.code 429) := hf
  simp only [applyOutcome, if_neg hs, if_neg hf2]

theorem checkCircuitBreaker_closed_below (rl : RateLimiter) (now : Nat)
    (ho : rl.circuitBreaker.isOpen = false) (hh : rl.circuitBreaker.isHalfOpen = false)
    (hnth : ¬rl.config.circuitBreakerThreshold ≤ rl.circuitBreaker.failureCount) :
    checkCircuitBreaker rl now = rl := by
  simp [checkCircuitBreaker, ho, hh, hnth]

theorem checkCircuitBreaker_closed_trip (rl : RateLimiter) (now : Nat)
    (ho : rl.circuitBreaker.isOpen = false) (hh : rl.circuitBreaker.isHalfOpen = false)
    (hth : rl.config.circuitBreakerThreshold ≤ rl.circuitBreaker.failureCount) :
    checkCircuitBreaker rl now
      = { rl with
          circuitBreaker := { rl.circuitBreaker with isOpen := true, openedAt := now },
          currentStrategy := Strategy.circuitBreakerMode } := by
  simp [checkCircuitBreaker, ho, hh, hth]

theorem checkCircuitBreaker_open_wait (rl : RateLimiter) (now : Nat)
    (ho : rl.circuitBreaker.isOpen = true)
    (hnel : ¬rl.config.circuitBreakerResetTime < now - rl.circuitBreaker.openedAt) :
    checkCircuitBreaker rl now = rl := by
  simp [checkCircuitBreaker, ho, hnel]

theorem checkCircuitBreaker_open_elapsed (rl : RateLimiter) (now : Nat)
    (ho : rl.circuitBreaker.isOpen = true) (hh : rl.circuitBreaker.isHalfOpen = false)
    (hel : rl.config.circuitBreakerResetTime < now - rl.circuitBreaker.openedAt) :
    checkCircuitBreaker rl now
      = { rl with
          circuitBreaker := { rl.circuitBreaker with
            isOpen := false, isHalfOpen := true,
            halfOpenSuccesses := 0, halfOpenAttempts := 0 } } := by
  simp [checkCircuitBreaker, ho, hh, hel]

theorem checkCircuitBreaker_halfOpen (rl : RateLimiter) (now : Nat)
    (hh : rl.circuitBreaker.isHalfOpen = true) :
    checkCircuitBreaker rl now = rl := by
  simp [checkCircuitBreaker, hh]

theorem updateApiHealth_breaker_eq (rl : RateLimiter) (sc : SCode) (now : Nat) :
    (updateApiHealth rl sc now).circuitBreaker
      = (checkCircuitBreaker (applyOutcome (tallyRequest rl now) sc now) now).circuitBreaker := by
  unfold updateApiHealth
  rw [adaptStrategy_circuitBreaker]

theorem cbTransitionClosedOpen (rl : RateLimiter) (sc : SCode) (now : Nat)
    (hc : cbClosed rl) (hf : isFailureCode sc) :
    cbOpen (updateApiHealth rl sc now) ↔
      rl.config.circuitBreakerThreshold ≤ rl.circuitBreaker.failureCount + 1 := by
  obtain ⟨ho, hh⟩ := hc
  have hTcb := tallyRequest_circuitBreaker rl now
  have hM := applyOutcome_failure_breaker (tallyRequest rl now) sc now hf
    (by rw [hTcb]; exact hh)
  rw [hTcb] at hM
  have hMconf : (applyOutcome (tallyRequest rl now) sc now).config = rl.config := by
    rw [applyOutcome_config, tallyRequest_config]
  by_cases hth : rl.config.circuitBreakerThreshold ≤ rl.circuitBreaker.failureCount + 1
  · have hk := checkCircuitBreaker_closed_trip (applyOutcome (tallyRequest rl now) sc now) now
      (by simp [hM, ho]) (by simp [hM, hh]) (by simp [hM, hMconf, hth])
    simp [cbOpen, updateApiHealth_breaker_eq, hk, hM, hh, hth]
  · have hk := checkCircuitBreaker_closed_below (applyOutcome (tallyRequest rl now) sc now) now
      (by simp [hM, ho]) (by simp [hM, hh]) (by simp [hM, hMconf, hth])
    simp [cbOpen, updateApiHealth_breaker_eq, hk, hM, ho, hth]

theorem applyOutcome_breaker_fields (rl : RateLimiter) (sc : SCode) (now : Nat)
    (hh : rl.circuitBreaker.isHalfOpen = false) :
    (applyOutcome rl sc now).circuitBreaker.isOpen = rl.circuitBreaker.isOpen ∧
    (applyOutcome rl sc now).circuitBreaker.isHalfOpen = rl.circuitBreaker.isHalfOpen ∧
    (applyOutcome rl sc now).circuitBreaker.openedAt = rl.circuitBreaker.openedAt := by
  simp only [applyOutcome]
  repeat' split
  all_goals simp_all

theorem cbTransitionOpenHalfOpen (rl : RateLimiter) (sc : SCode) (now : Nat)
    (hop : cbOpen rl)
    (hel : rl.config.circuitBreakerResetTime < now - rl.circuitBreaker.openedAt) :
    cbHalfOpen (updateApiHealth rl sc now) := by
  obtain ⟨ho, hh⟩ := hop
  have hp := applyOutcome_breaker_fields (tallyRequest rl now) sc now
    (by rw [tallyRequest_circuitBreaker]; exact hh)
  rw [tallyRequest_circuitBreaker] at hp
  obtain ⟨hpo, hph, hpa⟩ := hp
  have hk := checkCircuitBreaker_open_elapsed (applyOutcome (tallyRequest rl now) sc now) now
    (by rw [hpo]; exact ho) (by rw [hph]; exact hh)
    (by rw [applyOutcome_config, tallyRequest_config, hpa]; exact hel)
  simp [cbHalfOpen, updateApiHealth_breaker_eq, hk]

theorem applyOutcome_success_halfOpen_low (rl : RateLimiter) (sc : SCode) (now : Nat)
    (hs : sc = SCode.code 200 ∨ sc = SCode.jnull)
    (hh : rl.circuitBreaker.isHalfOpen = true)
    (hlow : rl.circuitBreaker.halfOpenSuccesses + 1 < 3) :
    (applyOutcome rl sc now).circuitBreaker
      = { rl.circuitBreaker with
          halfOpenSuccesses := rl.circuitBreaker.halfOpenSuccesses + 1,
          halfOpenAttempts := rl.circuitBreaker.halfOpenAttempts + 1 } := by
  simp only [applyOutcome, if_pos hs]
  simp [hh, Nat.not_le_of_lt hlow]

theorem applyOutcome_success_halfOpen_close (rl : RateLimiter) (sc : SCode) (now : Nat)
    (hs : sc = SCode.code 200 ∨ sc = SCode.jnull)
    (hh : rl.circuitBreaker.isHalfOpen = true)
    (hhigh : 3 ≤ rl.circuitBreaker.halfOpenSuccesses + 1) :
    (applyOutcome rl sc now).circuitBreaker
      = { rl.circuitBreaker with
          isOpen := false, isHalfOpen := false, failureCount := 0,
          halfOpenSuccesses := 0, halfOpenAttempts := 0 } := by
  simp only [applyOutcome, if_pos hs]
  simp [hh, hhigh]

theorem updateApiHealth_halfOpen_success_low (rl : RateLimiter) (now : Nat)
    (_ho : rl.circuitBreaker.isOpen = false) (hh : rl.circuitBreaker.isHalfOpen = true)
    (hlow : rl.circuitBreaker.halfOpenSuccesses + 1 < 3) :
    (updateApiHealth rl (SCode.code 200) now).circuitBreaker
      = { rl.circuitBreaker with
          halfOpenSuccesses := rl.circuitBreaker.halfOpenSuccesses + 1,
          halfOpenAttempts := rl.circuitBreaker.halfOpenAttempts + 1 } := by
  have hM := applyOutcome_success_halfOpen_low (tallyRequest rl now) (SCode.code 200) now
    (Or.inl rfl) (by rw [tallyRequest_circuitBreaker]; exact hh)
    (by rw [tallyRequest_circuitBreaker]; exact hlow)
  rw [tallyRequest_circuitBreaker] at hM
  have hk := checkCircuitBreaker_halfOpen (applyOutcome (tallyRequest rl now) (SCode.code 200) now)
    now (by simp [hM, hh])
  rw [updateApiHealth_breaker_eq, hk, hM]

theorem updateApiHealth_halfOpen_success_close (rl : RateLimiter) (now : Nat)
    (_ho : rl.circuitBreaker.isOpen = false) (hh : rl.circuitBreaker.isHalfOpen = true)
    (hhigh : 3 ≤ rl.circuitBreaker.halfOpenSuccesses + 1)
    (hth : 1 ≤ rl.config.circuitBreakerThreshold) :
    (updateApiHealth rl (SCode.code 200) now).circuitBreaker
      = { rl.circuitBreaker with
          isOpen := false, isHalfOpen := false, failureCount := 0,
          halfOpenSuccesses := 0, halfOpenAttempts := 0 } := by
  have hM := applyOutcome_success_halfOpen_close (tallyRequest rl now) (SCode.code 200) now
    (Or.inl rfl) (by rw [tallyRequest_circuitBreaker]; exact hh)
    (by rw [tallyRequest_circuitBreaker]; exact hhigh)
  rw [tallyRequest_circuitBreaker] at hM
  have hk := checkCircuitBreaker_closed_below (applyOutcome (tallyRequest rl now) (SCode.code 200) now)
    now (by simp [hM]) (by simp [hM])
    (by
      rw [applyOutcome_config, tallyRequest_config]
      simp only [hM]
      omega)
  rw [updateApiHealth_breaker_eq, hk, hM]

theorem cbTransitionHalfOpenClosed (rl : RateLimiter) (now : Nat)
    (hhalf : cbHalfOpen rl) (hzero : rl.circuitBreaker.halfOpenSuccesses = 0)
    (hth : 1 ≤ rl.config.circuitBreakerThreshold) :
    cbClosed
      (updateApiHealth
        (updateApiHealth (updateApiHealth rl (SCode.code 200) now) (SCode.code 200) now)
        (SCode.code 200) now) := by
  obtain ⟨ho, hh⟩ := hhalf
  have h1 := updateApiHealth_halfOpen_success_low rl now ho hh (by omega)
  have h2 := updateApiHealth_halfOpen_success_low (updateApiHealth rl (SCode.code 200) now) now
    (by simp [h1, ho]) (by simp [h1, hh]) (by simp [h1, hzero])
  have h3 := updateApiHealth_halfOpen_success_close
    (updateApiHealth (updateApiHealth rl (SCode.code 200) now) (SCode.code 200) now) now
    (by simp [h2, h1, ho]) (by simp [h2, h1, hh]) (by simp [h2, h1])
    (by rw [updateApiHealth_config, updateApiHealth_config]; exact hth)
  simp [cbClosed, h3]

theorem cbTransitionHalfOpenOpen (rl : RateLimiter) (sc : SCode) (now : Nat)
    (hhalf : cbHalfOpen rl) (hf : isFailureCode sc) :
    cbOpen (updateApiHealth rl sc now) ∧
      (updateApiHealth rl sc now).circuitBreaker.openedAt = now := by
  obtain ⟨ho, hh⟩ := hhalf
  have hM := applyOutcome_failure_halfOpen_breaker (tallyRequest rl now) sc now hf
    (by rw [tallyRequest_circuitBreaker]; exact hh)
  rw [tallyRequest_circuitBreaker] at hM
  have hk := checkCircuitBreaker_open_wait (applyOutcome (tallyRequest rl now) sc now) now
    (by simp [hM]) (by simp [hM])
  rw [cbOpen, updateApiHealth_breaker_eq, hk, hM]
  simp

theorem applyOutcome_success_health (rl : RateLimiter) (sc : SCode) (now : Nat)
    (hs : sc = SCode.code 200 ∨ sc = SCode.jnull) :
    (applyOutcome rl sc now).apiHealth.consecutive403s = 0 ∧
    (applyOutcome rl sc now).apiHealth.consecutive429s = 0 ∧
    (applyOutcome rl sc now).apiHealth.successfulRequests
      = rl.apiHealth.successfulRequests + 1 := by
  simp only [applyOutcome, if_pos hs]
  repeat' split
  all_goals exact ⟨rfl, rfl, rfl⟩

theorem applyOutcome_403_health (rl : RateLimiter) (now : Nat) :
    (applyOutcome rl (SCode.code 403) now).apiHealth.consecutive403s
      = rl.apiHealth.consecutive403s + 1 ∧
    (applyOutcome rl (SCode.code 403) now).apiHealth.consecutive429s
      = rl.apiHealth.consecutive429s ∧
    (applyOutcome rl (SCode.code 403) now).circuitBreaker.failureCount
      = rl.circuitBreaker.failureCount + 1 := by
  simp only [applyOutcome]
  repeat' split
  all_goals simp_all

theorem applyOutcome_429_health (rl : RateLimiter) (now : Nat) :
    (applyOutcome rl (SCode.code 429) now).apiHealth.consecutive429s
      = rl.apiHealth.consecutive429s + 1 ∧
    (applyOutcome rl (SCode.code 429) now).apiHealth.consecutive403s
      = rl.apiHealth.consecutive403s ∧
    (applyOutcome rl (SCode.code 429) now).circuitBreaker.failureCount
      = rl.circuitBreaker.failureCount + 1 := by
  simp only [applyOutcome]
  repeat' split
  all_goals simp_all

theorem updateApiHealth_success_counters (rl : RateLimiter) (sc : SCode) (now : Nat)
    (hs : sc = SCode.code 200 ∨ sc = SCode.jnull) :
    (updateApiHealth rl sc now).apiHealth.consecutive403s = 0 ∧
    (updateApiHealth rl sc now).apiHealth.consecutive429s = 0 := by
  have h := applyOutcome_success_health (tallyRequest rl now) sc now hs
  rw [updateApiHealth_apiHealth]
  exact ⟨h.1, h.2.1⟩

theorem updateApiHealth_403_counters (rl : RateLimiter) (now : Nat) :
    (updateApiHealth rl (SCode.code 403) now).apiHealth.consecutive403s
      = rl.apiHealth.consecutive403s + 1 ∧
    (updateApiHealth rl (SCode.code 403) now).apiHealth.consecutive429s
      = rl.apiHealth.consecutive429s ∧
    (updateApiHealth rl (SCode.code 403) now).circuitBreaker.failureCount
      = rl.circuitBreaker.failureCount + 1 := by
  have h := applyOutcome_403_health (tallyRequest rl now) now
  have ht := tallyRequest_counters rl now
  constructor
  · rw [updateApiHealth_apiHealth, h.1, ht.1]
  constructor
  · rw [updateApiHealth_apiHealth, h.2.1, ht.2.1]
  · rw [updateApiHealth_breaker_eq, checkCircuitBreaker_failureCount, h.2.2,
      tallyRequest_circuitBreaker]

theorem updateApiHealth_429_counters (rl : RateLimiter) (now : Nat) :
    (updateApiHealth rl (SCode.code 429) now).apiHealth.consecutive429s
      = rl.apiHealth.consecutive429s + 1 ∧
    (updateApiHealth rl (SCode.code 429) now).apiHealth.consecutive403s
      = rl.apiHealth.consecutive403s ∧
    (updateApiHealth rl (SCode.code 429) now).circuitBreaker.failureCount
      = rl.circuitBreaker.failureCount + 1 := by
  have h := applyOutcome_429_health (tallyRequest rl now) now
  have ht := tallyRequest_counters rl now
  constructor
  · rw [updateApiHealth_apiHealth, h.1, ht.2.1]
  constructor
  · rw [updateApiHealth_apiHealth, h.2.1, ht.1]
  · rw [updateApiHealth_breaker_eq, checkCircuitBreaker_failureCount, h.2.2,
      tallyRequest_circuitBreaker]

theorem updateApiHealth_neutral_counters (rl : RateLimiter) (sc : SCode) (now : Nat)
    (hs : ¬(sc = SCode.code 200 ∨ sc = SCode.jnull)) (hf : ¬isFailureCode sc) :
    (updateApiHealth rl sc now).apiHealth.consecutive403s
      = rl.apiHealth.consecutive403s ∧
    (updateApiHealth rl sc now).apiHealth.consecutive429s
      = rl.apiHealth.consecutive429s ∧
    (updateApiHealth rl sc now).circuitBreaker.failureCount
      = rl.circuitBreaker.failureCount := by
  have ht := tallyRequest_counters rl now
  constructor
  · rw [updateApiHealth_apiHealth, applyOutcome_neutral _ _ _ hs hf, ht.1]
  constructor
  · rw [updateApiHealth_apiHealth, applyOutcome_neutral _ _ _ hs hf, ht.2.1]
  · rw [updateApiHealth_breaker_eq, checkCircuitBreaker_failureCount,
      applyOutcome_neutral _ _ _ hs hf, tallyRequest_circuitBreaker]

theorem getPopularBuilds_resolved (rl : RateLimiter) (s : Nat) (b : Option (List Nat))
    (rest : List UpOutcome) (now rc : Nat) (h1 : 200 ≤ s) (h2 : s < 500) :
    (getPopularBuilds rl (UpOutcome.httpResp s b :: rest) now rc).result = b.getD [] ∧
    (getPopularBuilds rl (UpOutcome.httpResp s b :: rest) now rc).upstreamCalls = 1 ∧
    (getPopularBuilds rl (UpOutcome.httpResp s b :: rest) now rc).rl
      = updateApiHealth
          (if rc ≠ 0 then calculateDelayHealthEffect rl SCode.jnull now else rl)
          (SCode.code 200) now := by
  simp only [getPopularBuilds, axiosSettle, if_pos (And.intro h1 h2)]
  refine ⟨?_, ?_, ?_⟩ <;> trivial

theorem getPopularBuilds_server_error (rl : RateLimiter) (s : Nat)
    (rest : List UpOutcome) (now rc : Nat) (h5 : 500 ≤ s) :
    (getPopularBuilds rl (UpOutcome.httpResp s none :: rest) now rc).result = [] ∧
    (getPopularBuilds rl (UpOutcome.httpResp s none :: rest) now rc).upstreamCalls = 1 := by
  have hns : ¬(200 ≤ s ∧ s < 500) := by omega
  have h404 : ¬(SCode.code s = SCode.code 404) := by
    simp only [SCode.code.injEq]
    omega
  have hretry : ¬((SCode.code s = SCode.code 403 ∨ SCode.code s = SCode.code 429 ∨
      scodeFalsy (SCode.code s) = true) ∧ rc <
        (updateApiHealth (if rc ≠ 0 then calculateDelayHealthEffect rl SCode.jnull now else rl)
          (SCode.code s) now).config.maxRetries) := by
    rintro ⟨hc, -⟩
    rcases hc with h | h | h
    · rw [SCode.code.injEq] at h
      omega
    · rw [SCode.code.injEq] at h
      omega
    · simp only [scodeFalsy, Nat.beq_eq_true_eq] at h
      omega
  simp only [getPopularBuilds, axiosSettle, if_neg hns, if_neg h404, if_neg hretry]
  refine ⟨?_, ?_⟩ <;> trivial

theorem getPopularBuilds_first_call (rl : RateLimiter) (o : UpOutcome)
    (rest : List UpOutcome) (now rc : Nat) :
    1 ≤ (getPopularBuilds rl (o :: rest) now rc).upstreamCalls := by
  simp only [getPopularBuilds]
  rcases o with ⟨s, b⟩ | _ <;> simp only [axiosSettle]
  · split
    · simp
    · repeat' split
      all_goals simp
  · repeat' split
    all_goals simp

theorem delayStage_config (rl : RateLimiter) (now rc : Nat) :
    (if rc ≠ 0 then calculateDelayHealthEffect rl SCode.jnull now else rl).config
      = rl.config := by
  split
  · exact updateApiHealth_config rl SCode.jnull now
  · rfl

theorem getPopularBuilds_netErr_run (fuel : Nat) :
    ∀ (rl : RateLimiter) (now rc : Nat), rc + fuel = rl.config.maxRetries →
    (getPopularBuilds rl (List.replicate (fuel + 1) UpOutcome.netErr) now rc).result = [] ∧
    (getPopularBuilds rl (List.replicate (fuel + 1) UpOutcome.netErr) now rc).upstreamCalls
      = fuel + 1 ∧
    (getPopularBuilds rl (List.replicate (fuel + 1) UpOutcome.netErr) now rc).delaysComputed
      = fuel + (if rc = 0 then 0 else 1) := by
  induction fuel with
  | zero =>
    intro rl now rc hmax
    have hterm : ¬((SCode.jundef = SCode.code 403 ∨ SCode.jundef = SCode.code 429 ∨
        scodeFalsy SCode.jundef = true) ∧ rc <
          (updateApiHealth
            (if rc ≠ 0 then calculateDelayHealthEffect rl SCode.jnull now else rl)
            SCode.jundef now).config.maxRetries) := by
      rintro ⟨-, hlt⟩
      rw [updateApiHealth_config, delayStage_config] at hlt
      omega
    have h404 : ¬(SCode.jundef = SCode.code 404) := by simp
    simp only [List.replicate_one, getPopularBuilds, axiosSettle, if_neg h404, if_neg hterm]
    refine ⟨trivial, trivial, ?_⟩
    split <;> simp_all
  | succ fuel ih =>
    intro rl now rc hmax
    have hretry : (SCode.jundef = SCode.code 403 ∨ SCode.jundef = SCode.code 429 ∨
        scodeFalsy SCode.jundef = true) ∧ rc <
          (updateApiHealth
            (if rc ≠ 0 then calculateDelayHealthEffect rl SCode.jnull now else rl)
            SCode.jundef now).config.maxRetries := by
      constructor
      · exact Or.inr (Or.inr rfl)
      · rw [updateApiHealth_config, delayStage_config]
        omega
    have h404 : ¬(SCode.jundef = SCode.code 404) := by simp
    have hrec := ih
      (updateApiHealth
        (if rc ≠ 0 then calculateDelayHealthEffect rl SCode.jnull now else rl)
        SCode.jundef now)
      now (rc + 1)
      (by rw [updateApiHealth_config, delayStage_config]; omega)
    rw [List.replicate_succ, getPopularBuilds]
    simp only [axiosSettle, if_neg h404, if_pos hretry]
    refine ⟨hrec.1, ?_, ?_⟩
    · rw [hrec.2.1]
      omega
    · have h2 := hrec.2.2
      rw [if_neg (Nat.succ_ne_zero rc)] at h2
      rw [h2]
      split_ifs <;> omega

instance (sc : SCode) : Decidable (isFailureCode sc) := by
  unfold isFailureCode; infer_instance

instance (rl : RateLimiter) : Decidable (cbClosed rl) := by
  unfold cbClosed; infer_instance

instance (rl : RateLimiter) : Decidable (cbOpen rl) := by
  unfold cbOpen; infer_instance

instance (rl : RateLimiter) : Decidable (cbHalfOpen rl) := by
  unfold cbHalfOpen; infer_instance

/-- A limiter in the closed state one failure short of the bot's threshold of 15. -/
def closedNearLimiter : RateLimiter :=
  { config := botConfig 12, apiHealth := freshHealth 0,
    circuitBreaker := { freshBreaker with failureCount := 14 },
    currentStrategy := Strategy.moderate }

/-- A limiter whose breaker opened at time 0 (reset time 900000 in the bot's config). -/
def openOldLimiter : RateLimiter :=
  { config := botConfig 12, apiHealth := freshHealth 0,
    circuitBreaker := { isOpen := true, isHalfOpen := false, openedAt := 0,
                        failureCount := 15, halfOpenSuccesses := 0, halfOpenAttempts := 0 },
    currentStrategy := Strategy.circuitBreakerMode }

/-- A limiter in the half-open state with no half-open successes yet. -/
def halfOpenLimiter : RateLimiter :=
  { config := botConfig 12, apiHealth := freshHealth 0,
    circuitBreaker := { isOpen := false, isHalfOpen := true, openedAt := 0,
                        failureCount := 15, halfOpenSuccesses := 0, halfOpenAttempts := 0 },
    currentStrategy := Strategy.circuitBreakerMode }

/-- Claim C2: the circuit breaker follows exactly these transitions: from closed to
open when the shared failure counter reaches the configured threshold; from open to
half-open after the configured reset duration has elapsed since opening; from
half-open to closed after 3 consecutive successes while half-open; and from half-open
back to open on any single failure while half-open (which also restamps the open
timestamp). -/
theorem claim_C2_circuit_breaker_transitions :
    (∀ (rl : RateLimiter) (sc : SCode) (now : Nat), cbClosed rl → isFailureCode sc →
      (cbOpen (updateApiHealth rl sc now) ↔
        rl.config.circuitBreakerThreshold ≤ rl.circuitBreaker.failureCount + 1)) ∧
    (∀ (rl : RateLimiter) (sc : SCode) (now : Nat), cbOpen rl →
      rl.config.circuitBreakerResetTime < now - rl.circuitBreaker.openedAt →
      cbHalfOpen (updateApiHealth rl sc now)) ∧
    (∀ (rl : RateLimiter) (now : Nat), cbHalfOpen rl →
      rl.circuitBreaker.halfOpenSuccesses = 0 → 1 ≤ rl.config.circuitBreakerThreshold →
      cbClosed (updateApiHealth (updateApiHealth (updateApiHealth rl (SCode.code 200) now)
        (SCode.code 200) now) (SCode.code 200) now)) ∧
    (∀ (rl : RateLimiter) (sc : SCode) (now : Nat), cbHalfOpen rl → isFailureCode sc →
      cbOpen (updateApiHealth rl sc now) ∧
        (updateApiHealth rl sc now).circuitBreaker.openedAt = now) :=
  ⟨cbTransitionClosedOpen, cbTransitionOpenHalfOpen, cbTransitionHalfOpenClosed,
    cbTransitionHalfOpenOpen⟩

/-- Witness for C2 at concrete limiter states: a 429 at failure count 14 (threshold 15)
opens the breaker; any outcome after the reset time half-opens it; three successes
close it from half-open; a single 429 while half-open reopens it at the new time. -/
theorem claim_C2_witness :
    (cbOpen (updateApiHealth closedNearLimiter (SCode.code 429) 0) ↔
      closedNearLimiter.config.circuitBreakerThreshold
        ≤ closedNearLimiter.circuitBreaker.failureCount + 1) ∧
    cbHalfOpen (updateApiHealth openOldLimiter (SCode.code 500) 900001) ∧
    cbClosed (updateApiHealth (updateApiHealth (updateApiHealth halfOpenLimiter
      (SCode.code 200) 5) (SCode.code 200) 5) (SCode.code 200) 5) ∧
    (cbOpen (updateApiHealth halfOpenLimiter (SCode.code 429) 7) ∧
      (updateApiHealth halfOpenLimiter (SCode.code 429) 7).circuitBreaker.openedAt = 7) :=
  ⟨claim_C2_circuit_breaker_transitions.1 closedNearLimiter (SCode.code 429) 0
      (by decide) (by decide),
   claim_C2_circuit_breaker_transitions.2.1 openOldLimiter (SCode.code 500) 900001
      (by decide) (by decide),
   claim_C2_circuit_breaker_transitions.2.2.1 halfOpenLimiter 5
      (by decide) (by decide) (by decide),
   claim_C2_circuit_breaker_transitions.2.2.2 halfOpenLimiter (SCode.code 429) 7
      (by decide) (by decide)⟩

/-- Claim C3 (code-bug evidence): `shouldAttemptRequest` itself behaves as specified
(deny all but a < 30% random fraction while open; allow everything while half-open or
closed), but `getPopularBuilds` still issues the upstream call when the gate denies:
the source tests `if (!rateLimiter.shouldAttemptRequest())`, and the returned
`{allowed, reason}` object is always truthy in JS, so the early return is dead code.
With the breaker open and a random draw of 1/2 (not below the 0.3 probe chance) the
gate answers `allowed = false, reason = "circuit-breaker-open"`, yet the run against a
single upstream outcome still performs 1 upstream call instead of 0. -/
theorem claim_C3_gate_truthiness_bug :
    (shouldAttemptRequest openLimiter 1 2).allowed = false ∧
    (shouldAttemptRequest openLimiter 1 2).reason = "circuit-breaker-open" ∧
    (shouldAttemptRequest openLimiter 1 10).allowed = true ∧
    (shouldAttemptRequest openLimiter 1 10).reason = "circuit-breaker-probe" ∧
    (shouldAttemptRequest halfOpenLimiter 9 10).allowed = true ∧
    (shouldAttemptRequest (freshLimiter 12 0) 9 10).allowed = true ∧
    (getPopularBuilds openLimiter [UpOutcome.httpResp 429 none] 0 0).upstreamCalls = 1 := by
  decide

/-- Six consecutive 429 responses from the upstream. -/
def sixRateLimited : List UpOutcome := List.replicate 6 (UpOutcome.httpResp 429 none)

/-- The pipeline run of claim C4: fresh limiter, retry cap 5, upstream answers 429 on
every attempt. -/
def c4Run : FetchRun := getPopularBuilds (freshLimiter 5 0) sixRateLimited 0 0

/-- Claim C4 (counterexample): with a retry cap of 5 and the upstream answering 429 on
every attempt, the run returns an empty result after a single upstream call and the
consecutive-rate-limited counter ends at 0, not ≥ 6: the 429 response satisfies the
configured `validateStatus` predicate (`status < 500`), so the axios promise resolves,
the success path runs, and `updateApiHealth(200)` records a success. -/
theorem claim_C4_counterexample :
    c4Run.result = [] ∧ c4Run.upstreamCalls = 1 ∧
    c4Run.rl.apiHealth.consecutive429s = 0 ∧
    ¬6 ≤ c4Run.rl.apiHealth.consecutive429s := by decide

/-- Claim C4 (amended): in `updateApiHealth`, only a success-classified outcome
(status 200 or `null`) resets the two consecutive-failure counters (both to zero), a
403 increments exactly the forbidden counter plus the shared breaker failure counter,
a 429 increments exactly the rate-limited counter plus the shared failure counter, and
a no-status (network-error) outcome touches neither; but in the pipeline run in which
the upstream answers 429 on six consecutive attempts with a retry cap of 5, the 429
responses are accepted by `validateStatus` (status < 500) and recorded as successes,
so the pipeline yields its empty result after the first attempt and the
consecutive-rate-limited counter is 0 afterwards. -/
theorem claim_C4_counter_semantics :
    (∀ (rl : RateLimiter) (now : Nat),
      (updateApiHealth rl (SCode.code 200) now).apiHealth.consecutive403s = 0 ∧
      (updateApiHealth rl (SCode.code 200) now).apiHealth.consecutive429s = 0) ∧
    (∀ (rl : RateLimiter) (now : Nat),
      (updateApiHealth rl SCode.jnull now).apiHealth.consecutive403s = 0 ∧
      (updateApiHealth rl SCode.jnull now).apiHealth.consecutive429s = 0) ∧
    (∀ (rl : RateLimiter) (now : Nat),
      (updateApiHealth rl (SCode.code 403) now).apiHealth.consecutive403s
        = rl.apiHealth.consecutive403s + 1 ∧
      (updateApiHealth rl (SCode.code 403) now).apiHealth.consecutive429s
        = rl.apiHealth.consecutive429s ∧
      (updateApiHealth rl (SCode.code 403) now).circuitBreaker.failureCount
        = rl.circuitBreaker.failureCount + 1) ∧
    (∀ (rl : RateLimiter) (now : Nat),
      (updateApiHealth rl (SCode.code 429) now).apiHealth.consecutive429s
        = rl.apiHealth.consecutive429s + 1 ∧
      (updateApiHealth rl (SCode.code 429) now).apiHealth.consecutive403s
        = rl.apiHealth.consecutive403s ∧
      (updateApiHealth rl (SCode.code 429) now).circuitBreaker.failureCount
        = rl.circuitBreaker.failureCount + 1) ∧
    (∀ (rl : RateLimiter) (now : Nat),
      (updateApiHealth rl SCode.jundef now).apiHealth.consecutive403s
        = rl.apiHealth.consecutive403s ∧
      (updateApiHealth rl SCode.jundef now).apiHealth.consecutive429s
        = rl.apiHealth.consecutive429s ∧
      (updateApiHealth rl SCode.jundef now).circuitBreaker.failureCount
        = rl.circuitBreaker.failureCount) ∧
    (c4Run.result = [] ∧ c4Run.upstreamCalls = 1 ∧
      c4Run.rl.apiHealth.consecutive429s = 0 ∧
      c4Run.rl.apiHealth.successfulRequests = 1) :=
  ⟨fun rl now => updateApiHealth_success_counters rl (SCode.code 200) now (Or.inl rfl),
   fun rl now => updateApiHealth_success_counters rl SCode.jnull now (Or.inr rfl),
   updateApiHealth_403_counters,
   updateApiHealth_429_counters,
   fun rl now => updateApiHealth_neutral_counters rl SCode.jundef now
     (by decide) (by decide),
   by decide⟩

/-- The pipeline run of claim C8's counterexample: one 429 response, retry cap 5. -/
def c8Run : FetchRun := getPopularBuilds (freshLimiter 5 0) [UpOutcome.httpResp 429 none] 0 0

/-- Claim C8 (counterexample): a rate-limited (429) outcome is not retried: with the
retry cap at 5 the run makes exactly one upstream call, computes no backoff delay, and
records the outcome as a success (the 429 response satisfies `validateStatus`, so the
catch block that would retry it never runs). -/
theorem claim_C8_counterexample :
    c8Run.upstreamCalls = 1 ∧ c8Run.delaysComputed = 0 ∧
    c8Run.rl.apiHealth.successfulRequests = 1 ∧
    c8Run.rl.apiHealth.consecutive429s = 0 ∧ c8Run.result = [] := by decide

/-- Claim C8 (amended): `getPopularBuilds` never propagates an exception (the
embedding is a total function; every source path returns a value). Any HTTP response
with 200 ≤ status < 500 — including 403, 404 and 429 — resolves per `validateStatus`
and returns immediately without entering the retry path, the result being the
extracted build array (empty when the body has none); a response with status ≥ 500
rejects but is not retried either, returning an empty result at once; only
network-error (no-status) outcomes are retried, up to the configured maximum attempt
count, with a backoff delay computed before every retry, and exhausting the attempt
cap returns a terminal empty result; the `shouldAttemptRequest` gate is consulted but
never blocks the attempt (the source negates the returned object, which is always
truthy), so every run with at least one upstream outcome makes at least one call. -/
theorem claim_C8_failure_semantics :
    (∀ (rl : RateLimiter) (s : Nat) (b : Option (List Nat)) (rest : List UpOutcome)
        (now rc : Nat), 200 ≤ s → s < 500 →
      (getPopularBuilds rl (UpOutcome.httpResp s b :: rest) now rc).result = b.getD [] ∧
      (getPopularBuilds rl (UpOutcome.httpResp s b :: rest) now rc).upstreamCalls = 1) ∧
    (∀ (rl : RateLimiter) (s : Nat) (rest : List UpOutcome) (now rc : Nat), 500 ≤ s →
      (getPopularBuilds rl (UpOutcome.httpResp s none :: rest) now rc).result = [] ∧
      (getPopularBuilds rl (UpOutcome.httpResp s none :: rest) now rc).upstreamCalls = 1) ∧
    (∀ (rl : RateLimiter) (now : Nat),
      (getPopularBuilds rl (List.replicate (rl.config.maxRetries + 1) UpOutcome.netErr)
        now 0).result = [] ∧
      (getPopularBuilds rl (List.replicate (rl.config.maxRetries + 1) UpOutcome.netErr)
        now 0).upstreamCalls = rl.config.maxRetries + 1 ∧
      (getPopularBuilds rl (List.replicate (rl.config.maxRetries + 1) UpOutcome.netErr)
        now 0).delaysComputed = rl.config.maxRetries) ∧
    (∀ (rl : RateLimiter) (o : UpOutcome) (rest : List UpOutcome) (now rc : Nat),
      1 ≤ (getPopularBuilds rl (o :: rest) now rc).upstreamCalls) := by
  refine ⟨?_, ?_, ?_, getPopularBuilds_first_call⟩
  · intro rl s b rest now rc h1 h2
    exact ⟨(getPopularBuilds_resolved rl s b rest now rc h1 h2).1,
      (getPopularBuilds_resolved rl s b rest now rc h1 h2).2.1⟩
  · intro rl s rest now rc h5
    exact getPopularBuilds_server_error rl s rest now rc h5
  · intro rl now
    have h := getPopularBuilds_netErr_run rl.config.maxRetries rl now 0 (by omega)
    refine ⟨h.1, h.2.1, ?_⟩
    rw [h.2.2]
    simp

/-- Witness for C8's amended statement at concrete inputs: a 404 response returns an
empty result in one call; a 503 response returns an empty result in one call; with a
retry cap of 2, three network errors exhaust the cap in three calls with two delays;
and a run with one outcome available makes (at least) one upstream call even with the
breaker open. -/
theorem claim_C8_failure_semantics_witness :
    ((getPopularBuilds (freshLimiter 5 0) [UpOutcome.httpResp 404 none] 0 0).result = [] ∧
     (getPopularBuilds (freshLimiter 5 0) [UpOutcome.httpResp 404 none] 0 0).upstreamCalls
       = 1) ∧
    ((getPopularBuilds (freshLimiter 5 0) [UpOutcome.httpResp 503 none] 0 0).result = [] ∧
     (getPopularBuilds (freshLimiter 5 0) [UpOutcome.httpResp 503 none] 0 0).upstreamCalls
       = 1) ∧
    ((getPopularBuilds (freshLimiter 2 0) (List.replicate 3 UpOutcome.netErr) 0 0).result
       = [] ∧
     (getPopularBuilds (freshLimiter 2 0)
       (List.replicate 3 UpOutcome.netErr) 0 0).upstreamCalls = 3 ∧
     (getPopularBuilds (freshLimiter 2 0)
       (List.replicate 3 UpOutcome.netErr) 0 0).delaysComputed = 2) ∧
    1 ≤ (getPopularBuilds openLimiter [UpOutcome.httpResp 429 none] 0 0).upstreamCalls :=
  ⟨claim_C8_failure_semantics.1 (freshLimiter 5 0) 404 none [] 0 0 (by decide) (by decide),
   claim_C8_failure_semantics.2.1 (freshLimiter 5 0) 503 [] 0 0 (by decide),
   claim_C8_failure_semantics.2.2.1 (freshLimiter 2 0) 0,
   claim_C8_failure_semantics.2.2.2 openLimiter (UpOutcome.httpResp 429 none) [] 0 0⟩

/-- The event-loop state of the deduplication layer (`getHeroWithDeduplication` and
the module-level `ongoingRequests` map) projected onto one fixed normalized key.
Flights (executions of the async IIFE) are numbered; `inflight` is the entry currently
registered in `ongoingRequests` for the key, `invocations` counts how many times the
IIFE was started, `joined` records which caller awaits which flight's promise,
`settledFlights` maps a flight to its result once its promise has resolved, and
`delivered` records the results handed to callers. -/
structure DedupState where
  inflight : Option Nat
  nextId : Nat
  invocations : Nat
  joined : List (Nat × Nat)
  settledFlights : List (Nat × Nat)
  delivered : List (Nat × Nat)
deriving DecidableEq

/-- The result of a flight whose promise has already resolved, if any. -/
def flightResult : List (Nat × Nat) → Nat → Option Nat
  | [], _ => none
  | (g, r) :: rest, f => if g = f then some r else flightResult rest f

/-- One call to `getHeroWithDeduplication` for the key, by caller `c`, as a single
atomic event-loop step (the source has no `await` between the `ongoingRequests.has`
check and `ongoingRequests.set`, so no other caller can interleave). `hit` is the
outcome of the cache lookup the IIFE would perform (`some r`: `getCachedHeroImage`
returns the cached artifact `r`; `none`: cache miss).

When an entry is registered the caller joins it — the cache is not consulted — and
awaits the shared promise; if that flight has already settled, the `await` resolves at
once with its recorded result.

When no entry is registered a new flight starts: the async IIFE runs synchronously up
to its first suspension. On a cache miss that is the `await analyzeHeroData(...)`, so
`ongoingRequests.set` registers the still-pending flight. On a cache hit the IIFE body
reaches its `return` with no `await` at all, so the whole body — including the
`finally` block's `ongoingRequests.delete`, a no-op because nothing is registered
yet — completes synchronously BEFORE `ongoingRequests.set` runs: the flight is
already settled when it is registered, and that registration is only ever removed by
the `REQUEST_TIMEOUT` cleanup. -/
def dedupCall (s : DedupState) (c : Nat) (hit : Option Nat) : DedupState :=
  match s.inflight with
  | some f =>
    { s with
      joined := (c, f) :: s.joined,
      delivered :=
        match flightResult s.settledFlights f with
        | some r => (c, r) :: s.delivered
        | none => s.delivered }
  | none =>
    match hit with
    | some r =>
      { s with
        inflight := some s.nextId, nextId := s.nextId + 1,
        invocations := s.invocations + 1,
        joined := (c, s.nextId) :: s.joined,
        settledFlights := (s.nextId, r) :: s.settledFlights,
        delivered := (c, r) :: s.delivered }
    | none =>
      { s with
        inflight := some s.nextId, nextId := s.nextId + 1,
        invocations := s.invocations + 1,
        joined := (c, s.nextId) :: s.joined }

/-- Settlement of a pending (cache-miss) flight `f` with result `r`: the IIFE resumes
and completes, its `finally` block deletes the key's entry from `ongoingRequests`
(whatever is registered there), and every caller awaiting flight `f`'s promise
receives the same value `r`. -/
def dedupSettle (s : DedupState) (f r : Nat) : DedupState :=
  { s with
    inflight := none,
    settledFlights := (f, r) :: s.settledFlights,
    delivered := (s.joined.filter (fun p => p.2 = f)).map (fun p => (p.1, r))
      ++ s.delivered }

/-- The `REQUEST_TIMEOUT` (2-minute) `setTimeout` callback:
`if (ongoingRequests.has(key)) ongoingRequests.delete(key)`. -/
def dedupTimeout (s : DedupState) : DedupState := { s with inflight := none }

theorem foldl_dedupCall_join (calls : List (Nat × Option Nat)) :
    ∀ (s : DedupState) (f : Nat), s.inflight = some f →
    ((calls.foldl (fun st p => dedupCall st p.1 p.2) s).inflight = some f ∧
     (calls.foldl (fun st p => dedupCall st p.1 p.2) s).invocations = s.invocations ∧
     (∀ p ∈ calls,
       (p.1, f) ∈ (calls.foldl (fun st p => dedupCall st p.1 p.2) s).joined) ∧
     (∀ q ∈ s.joined, q ∈ (calls.foldl (fun st p => dedupCall st p.1 p.2) s).joined)) := by
  induction calls with
  | nil => intro s f h; exact ⟨h, rfl, by simp, fun q hq => hq⟩
  | cons p rest ih =>
    intro s f h
    have hjoined : (dedupCall s p.1 p.2).joined = (p.1, f) :: s.joined := by
      unfold dedupCall
      rw [h]
    have hinf : (dedupCall s p.1 p.2).inflight = s.inflight := by
      unfold dedupCall
      rw [h]
    have hinv : (dedupCall s p.1 p.2).invocations = s.invocations := by
      unfold dedupCall
      rw [h]
    have hrec := ih (dedupCall s p.1 p.2) f (by rw [hinf]; exact h)
    refine ⟨hrec.1, ?_, ?_, ?_⟩
    · rw [List.foldl_cons] at *
      rw [hrec.2.1, hinv]
    · intro q hq
      rcases List.mem_cons.mp hq with hqp | hqr
      · subst hqp
        exact hrec.2.2.2 (q.1, f) (by rw [hjoined]; exact List.mem_cons_self _ _)
      · exact hrec.2.2.1 q hqr
    · intro q hq
      exact hrec.2.2.2 q (by rw [hjoined]; exact List.mem_cons_of_mem _ hq)

/-- The initial dedup state: no entry, no flights, nothing delivered. -/
def dedupInit : DedupState :=
  { inflight := none, nextId := 0, invocations := 0, joined := [],
    settledFlights := [], delivered := [] }

/-- Claim C1 (counterexample): on the primary fast path the entry is NOT removed when
the computation settles. Caller 1 requests a key whose artifact is cached (result 42):
the IIFE returns synchronously, so the computation settles — the flight is recorded
settled and the caller is delivered 42 — during the very call step, and its
finally-delete runs before `ongoingRequests.set`; afterwards the already-settled
flight is still registered (`inflight = some 0`), and only the 2-minute timeout
removes it. -/
theorem claim_C1_counterexample :
    (1, 42) ∈ (dedupCall dedupInit 1 (some 42)).delivered ∧
    flightResult (dedupCall dedupInit 1 (some 42)).settledFlights 0 = some 42 ∧
    (dedupCall dedupInit 1 (some 42)).inflight = some 0 ∧
    (dedupTimeout (dedupCall dedupInit 1 (some 42))).inflight = none := by
  decide

theorem dedupMissPath (c0 : Nat) (calls : List (Nat × Option Nat)) (r : Nat)
    (s0 : DedupState) (h0 : s0.inflight = none) :
    (calls.foldl (fun st p => dedupCall st p.1 p.2)
        (dedupCall s0 c0 none)).inflight = some s0.nextId ∧
    (calls.foldl (fun st p => dedupCall st p.1 p.2)
        (dedupCall s0 c0 none)).invocations = s0.invocations + 1 ∧
    (c0, s0.nextId) ∈ (calls.foldl (fun st p => dedupCall st p.1 p.2)
        (dedupCall s0 c0 none)).joined ∧
    (∀ p ∈ calls, (p.1, s0.nextId) ∈ (calls.foldl (fun st p => dedupCall st p.1 p.2)
        (dedupCall s0 c0 none)).joined) ∧
    (dedupSettle (calls.foldl (fun st p => dedupCall st p.1 p.2)
        (dedupCall s0 c0 none)) s0.nextId r).inflight = none ∧
    (c0, r) ∈ (dedupSettle (calls.foldl (fun st p => dedupCall st p.1 p.2)
        (dedupCall s0 c0 none)) s0.nextId r).delivered ∧
    (∀ p ∈ calls, (p.1, r) ∈ (dedupSettle (calls.foldl (fun st p => dedupCall st p.1 p.2)
        (dedupCall s0 c0 none)) s0.nextId r).delivered) := by
  have hstart : dedupCall s0 c0 none
      = { s0 with
          inflight := some s0.nextId, nextId := s0.nextId + 1,
          invocations := s0.invocations + 1,
          joined := (c0, s0.nextId) :: s0.joined } := by
    unfold dedupCall
    rw [h0]
  have hrec := foldl_dedupCall_join calls (dedupCall s0 c0 none) s0.nextId
    (by rw [hstart])
  have hc0 : (c0, s0.nextId) ∈ (calls.foldl (fun st p => dedupCall st p.1 p.2)
      (dedupCall s0 c0 none)).joined :=
    hrec.2.2.2 (c0, s0.nextId) (by rw [hstart]; exact List.mem_cons_self _ _)
  have hdeliver : ∀ c, (c, s0.nextId) ∈ (calls.foldl (fun st p => dedupCall st p.1 p.2)
        (dedupCall s0 c0 none)).joined →
      (c, r) ∈ (dedupSettle (calls.foldl (fun st p => dedupCall st p.1 p.2)
        (dedupCall s0 c0 none)) s0.nextId r).delivered := by
    intro c hj
    unfold dedupSettle
    simp only [List.mem_append]
    left
    exact List.mem_map.mpr ⟨(c, s0.nextId), List.mem_filter.mpr ⟨hj, by simp⟩, rfl⟩
  refine ⟨hrec.1, ?_, hc0, fun p hp => hrec.2.2.1 p hp, rfl, hdeliver c0 hc0,
    fun p hp => hdeliver p.1 (hrec.2.2.1 p hp)⟩
  rw [hrec.2.1, hstart]

theorem dedupCall_settled_join (s : DedupState) (c f r : Nat)
    (hf : s.inflight = some f) (hr : flightResult s.settledFlights f = some r) :
    dedupCall s c none
      = { s with joined := (c, f) :: s.joined, delivered := (c, r) :: s.delivered } := by
  unfold dedupCall
  rw [hf]
  dsimp only
  rw [hr]

theorem dedupHitPath (c0 c1 r : Nat) (s0 : DedupState) (h0 : s0.inflight = none) :
    (dedupCall s0 c0 (some r)).inflight = some s0.nextId ∧
    (dedupCall s0 c0 (some r)).invocations = s0.invocations + 1 ∧
    (c0, r) ∈ (dedupCall s0 c0 (some r)).delivered ∧
    flightResult (dedupCall s0 c0 (some r)).settledFlights s0.nextId = some r ∧
    (c1, r) ∈ (dedupCall (dedupCall s0 c0 (some r)) c1 none).delivered ∧
    (dedupCall (dedupCall s0 c0 (some r)) c1 none).invocations = s0.invocations + 1 ∧
    (dedupTimeout (dedupCall s0 c0 (some r))).inflight = none := by
  have hstart : dedupCall s0 c0 (some r)
      = { s0 with
          inflight := some s0.nextId, nextId := s0.nextId + 1,
          invocations := s0.invocations + 1,
          joined := (c0, s0.nextId) :: s0.joined,
          settledFlights := (s0.nextId, r) :: s0.settledFlights,
          delivered := (c0, r) :: s0.delivered } := by
    unfold dedupCall
    rw [h0]
  have hres : flightResult (dedupCall s0 c0 (some r)).settledFlights s0.nextId
      = some r := by
    rw [hstart]
    simp [flightResult]
  have hjoin := dedupCall_settled_join (dedupCall s0 c0 (some r)) c1 s0.nextId r
    (by rw [hstart]) hres
  refine ⟨by rw [hstart], by rw [hstart], ?_, hres, ?_, ?_, rfl⟩
  · rw [hstart]
    exact List.mem_cons_self _ _
  · rw [hjoin]
    exact List.mem_cons_self _ _
  · rw [hjoin, hstart]

/-- Claim C1 (amended): if no in-flight entry exists for the normalized key, a new
entry is created and registered synchronously (creation and registration atomic from
the caller's perspective), the underlying computation is invoked exactly once even
when many concurrent calls arrive for the same key, and all joined callers receive
the identical result; the entry is removed when the computation settles only on the
cache-miss path, where the flight is still pending at registration time. On a cache
hit the computation settles synchronously before the entry is registered, so the
already-settled entry stays registered — late joiners within the window still
receive the identical result immediately, without a second invocation — and it is
removed only by the 2-minute timeout. -/
theorem claim_C1_dedup_flight_lifecycle :
    (∀ (c0 : Nat) (calls : List (Nat × Option Nat)) (r : Nat) (s0 : DedupState),
      s0.inflight = none →
      (calls.foldl (fun st p => dedupCall st p.1 p.2)
          (dedupCall s0 c0 none)).inflight = some s0.nextId ∧
      (calls.foldl (fun st p => dedupCall st p.1 p.2)
          (dedupCall s0 c0 none)).invocations = s0.invocations + 1 ∧
      (c0, s0.nextId) ∈ (calls.foldl (fun st p => dedupCall st p.1 p.2)
          (dedupCall s0 c0 none)).joined ∧
      (∀ p ∈ calls, (p.1, s0.nextId) ∈ (calls.foldl (fun st p => dedupCall st p.1 p.2)
          (dedupCall s0 c0 none)).joined) ∧
      (dedupSettle (calls.foldl (fun st p => dedupCall st p.1 p.2)
          (dedupCall s0 c0 none)) s0.nextId r).inflight = none ∧
      (c0, r) ∈ (dedupSettle (calls.foldl (fun st p => dedupCall st p.1 p.2)
          (dedupCall s0 c0 none)) s0.nextId r).delivered ∧
      (∀ p ∈ calls, (p.1, r) ∈ (dedupSettle (calls.foldl
          (fun st p => dedupCall st p.1 p.2)
          (dedupCall s0 c0 none)) s0.nextId r).delivered)) ∧
    (∀ (c0 c1 r : Nat) (s0 : DedupState), s0.inflight = none →
      (dedupCall s0 c0 (some r)).inflight = some s0.nextId ∧
      (dedupCall s0 c0 (some r)).invocations = s0.invocations + 1 ∧
      (c0, r) ∈ (dedupCall s0 c0 (some r)).delivered ∧
      flightResult (dedupCall s0 c0 (some r)).settledFlights s0.nextId = some r ∧
      (c1, r) ∈ (dedupCall (dedupCall s0 c0 (some r)) c1 none).delivered ∧
      (dedupCall (dedupCall s0 c0 (some r)) c1 none).invocations
        = s0.invocations + 1 ∧
      (dedupTimeout (dedupCall s0 c0 (some r))).inflight = none) :=
  ⟨dedupMissPath, dedupHitPath⟩

/-- The nine joiners of the witness's miss-path burst (their own cache outcomes are
irrelevant: a join never consults the cache). -/
def witnessJoiners : List (Nat × Option Nat) :=
  [(2, none), (3, none), (4, some 9), (5, none), (6, none), (7, none), (8, none),
   (9, none), (10, none)]

/-- The witness's miss-path burst: caller 1 starts the flight, nine callers join. -/
def witnessBurst : DedupState :=
  witnessJoiners.foldl (fun st p => dedupCall st p.1 p.2) (dedupCall dedupInit 1 none)

/-- Witness for C1's amended statement: a miss-path flight joined by nine further
callers invokes the computation once and delivers 42 to all ten on settlement,
removing the entry; a hit-path flight delivers the cached 7 synchronously, stays
registered with no second invocation when caller 2 joins, and is removed by the
timeout. -/
theorem claim_C1_dedup_flight_lifecycle_witness :
    (witnessBurst.inflight = some 0 ∧
     witnessBurst.invocations = 0 + 1 ∧
     (1, (0 : Nat)) ∈ witnessBurst.joined ∧
     (∀ p ∈ witnessJoiners, (p.1, (0 : Nat)) ∈ witnessBurst.joined) ∧
     (dedupSettle witnessBurst 0 42).inflight = none ∧
     (1, (42 : Nat)) ∈ (dedupSettle witnessBurst 0 42).delivered ∧
     (∀ p ∈ witnessJoiners, (p.1, (42 : Nat)) ∈ (dedupSettle witnessBurst 0 42).delivered)) ∧
    ((dedupCall dedupInit 1 (some 7)).inflight = some 0 ∧
     (dedupCall dedupInit 1 (some 7)).invocations = 0 + 1 ∧
     (1, (7 : Nat)) ∈ (dedupCall dedupInit 1 (some 7)).delivered ∧
     flightResult (dedupCall dedupInit 1 (some 7)).settledFlights 0 = some 7 ∧
     (2, (7 : Nat)) ∈ (dedupCall (dedupCall dedupInit 1 (some 7)) 2 none).delivered ∧
     (dedupCall (dedupCall dedupInit 1 (some 7)) 2 none).invocations = 0 + 1 ∧
     (dedupTimeout (dedupCall dedupInit 1 (some 7))).inflight = none) :=
  ⟨claim_C1_dedup_flight_lifecycle.1 1 witnessJoiners 42 dedupInit rfl,
   claim_C1_dedup_flight_lifecycle.2 1 2 7 dedupInit rfl⟩

/-- The command-queue state of the bot: `queue` holds queued commands (identified by
the issuing user's id) in FIFO order, `processing` holds one element per command
currently being processed, and `processingSet` holds the contents of the JS
`processingCommands` Set — which is keyed by user id, not by command. -/
structure QueueState where
  queue : List Nat
  processing : List Nat
  processingSet : List Nat
deriving DecidableEq

/-- JS `Set.add`: no-op when the element is already present. -/
def setAdd (s : List Nat) (u : Nat) : List Nat := if u ∈ s then s else s ++ [u]

/-- JS `Set.delete`: removes the element entirely. -/
def setDelete (s : List Nat) (u : Nat) : List Nat := s.filter (fun v => v ≠ u)

/-- The `processQueue` drain loop (briar-bot.js lines 236-252):
`while (commandQueue.length > 0 && processingCommands.size < MAX_CONCURRENT_COMMANDS)`
shift the oldest command and start `processCommand` on it, whose first synchronous
statement is `processingCommands.add(userId)`. -/
def processQueueGo (maxConc : Nat) : List Nat → List Nat → List Nat → QueueState
  | [], processing, processingSet =>
    { queue := [], processing := processing, processingSet := processingSet }
  | u :: rest, processing, processingSet =>
    if processingSet.length < maxConc then
      processQueueGo maxConc rest (processing ++ [u]) (setAdd processingSet u)
    else
      { queue := u :: rest, processing := processing, processingSet := processingSet }

/-- Run the drain loop on a queue state. -/
def processQueue (maxConc : Nat) (s : QueueState) : QueueState :=
  processQueueGo maxConc s.queue s.processing s.processingSet

/-- The admission path of the `messageCreate` handler plus `addToQueue`
(briar-bot.js lines 1934-1956 and 220-234): reject when the user already has a
processing command (`processingCommands.has`), reject without mutating anything when
the queue is full (`commandQueue.length >= QUEUE_MAX_SIZE`), otherwise append and
drain. -/
def handleMessage (maxConc maxQueue : Nat) (s : QueueState) (u : Nat) : QueueState :=
  if u ∈ s.processingSet then s
  else if maxQueue ≤ s.queue.length then s
  else processQueue maxConc { s with queue := s.queue ++ [u] }

/-- Completion of one of user `u`'s processing commands (`processCommand`'s finally
block): `processingCommands.delete(userId)` removes the user id from the Set even if
another command of the same user is still processing, then the drain loop re-runs. -/
def completeCommand (maxConc : Nat) (s : QueueState) (u : Nat) : QueueState :=
  processQueue maxConc
    { s with processing := s.processing.erase u, processingSet := setDelete s.processingSet u }

/-- Queue events: a user message passing rate-limit/search, or the completion of a
processing command. -/
inductive QEvent where
  | msg : Nat → QEvent
  | complete : Nat → QEvent
deriving DecidableEq

/-- One step of the queue trace at the bot's constants
(`MAX_CONCURRENT_COMMANDS = 2`, `QUEUE_MAX_SIZE = 20`). -/
def qStep (s : QueueState) (e : QEvent) : QueueState :=
  match e with
  | QEvent.msg u => handleMessage 2 20 s u
  | QEvent.complete u => completeCommand 2 s u

/-- The empty queue state. -/
def qInit : QueueState := { queue := [], processing := [], processingSet := [] }

/-- The trace of claim C9's failing input: users 1 and 2 occupy both slots; user 3
(not yet processing, so the `processingCommands.has` guard passes) queues two
commands; user 4 queues one; then the commands of users 1 and 2 complete. -/
def c9Trace : QueueState :=
  [QEvent.msg 1, QEvent.msg 2, QEvent.msg 3, QEvent.msg 3, QEvent.msg 4,
   QEvent.complete 1, QEvent.complete 2].foldl qStep qInit

/-- Claim C9 (code-bug evidence): after the c9Trace events, three commands (two of
user 3 and one of user 4) are processing concurrently although
`MAX_CONCURRENT_COMMANDS = 2` — the drain loop compares the size of the
user-id-keyed Set, which does not grow when a second command of the same user starts,
contradicting the source's own comment "Process max 2 commands simultaneously". The
FIFO order and the full-queue rejection behave as claimed: enqueueing onto a full
queue of 20 leaves the state unchanged. -/
theorem claim_C9_concurrency_cap_violated :
    c9Trace.processing = [3, 3, 4] ∧ 2 < c9Trace.processing.length ∧
    (handleMessage 2 20
      { queue := List.range 20, processing := [], processingSet := [] } 77
      = { queue := List.range 20, processing := [], processingSet := [] }) := by
  decide

/-- JS `\s` whitespace (the characters that occur in hero names). -/
def jsWhitespace (c : Char) : Bool :=
  c == ' ' || c == '\t' || c == '\n' || c == '\r'

/-- A character kept by `generateFilename`'s `[^a-z0-9\s]` strip (applied after
lowercasing). -/
def keepChar (c : Char) : Bool :=
  (decide ('a' ≤ c) && decide (c ≤ 'z')) ||
  (decide ('0' ≤ c) && decide (c ≤ '9')) ||
  jsWhitespace c

/-- `replace(/\s+/g, '_')`: each maximal run of whitespace becomes one underscore.
The flag records whether the previous character was part of a whitespace run. -/
def collapseRuns : Bool → List Char → List Char
  | _, [] => []
  | prevWs, c :: rest =>
    if jsWhitespace c then
      if prevWs then collapseRuns true rest else '_' :: collapseRuns true rest
    else
      c :: collapseRuns false rest

/-- `CacheManager.generateFilename`: lowercase, strip everything but `[a-z0-9\s]`,
turn whitespace runs into underscores, cap at 50 characters. -/
def generateFilename (heroName : String) : String :=
  let lowered := heroName.toList.map Char.toLower
  let kept := lowered.filter keepChar
  String.mk ((collapseRuns false kept).take 50)

example : generateFilename "Alpha " = "alpha_" := by decide
example : generateFilename "alpha" = "alpha" := by decide

/-- One value of `metadata.heroes[heroName]` (cache-manager.js lines 131-141). -/
structure HeroEntry where
  filename : String
  lastUpdated : Nat
  fileSizeBytes : Nat
  totalBuilds : Nat
  validData : Bool
  accessCount : Nat
  lastAccessed : Nat
deriving DecidableEq

/-- The `CacheManager` state: `heroes` is the metadata map in JS property-insertion
order keyed by the raw hero name, `files` the set of image files on disk (identified
by their sanitized base name), `failedHeroes` the `metadata.failedHeroes` list
(hero name and timestamp; the error text is irrelevant), plus the configured maximum
size and TTL. Timestamps are milliseconds as `Nat`. -/
structure CacheState where
  heroes : List (String × HeroEntry)
  files : List String
  failedHeroes : List (String × Nat)
  maxCacheSize : Nat
  ttl : Nat
deriving DecidableEq

/-- Lookup of `metadata.heroes[heroName]` — by the raw name. -/
def heroLookup : List (String × HeroEntry) → String → Option HeroEntry
  | [], _ => none
  | (k, e) :: rest, n => if k = n then some e else heroLookup rest n

/-- JS property assignment `metadata.heroes[heroName] = entry`: overwrite in place
when the key exists, append otherwise. -/
def heroSet : List (String × HeroEntry) → String → HeroEntry → List (String × HeroEntry)
  | [], n, e => [(n, e)]
  | (k, e0) :: rest, n, e =>
    if k = n then (k, e) :: rest else (k, e0) :: heroSet rest n e

/-- JS `delete metadata.heroes[heroName]`. -/
def heroRemove : List (String × HeroEntry) → String → List (String × HeroEntry)
  | [], _ => []
  | (k, e) :: rest, n => if k = n then rest else (k, e) :: heroRemove rest n

/-- Add a file to the disk set. -/
def fileAdd (fs : List String) (f : String) : List String :=
  if f ∈ fs then fs else f :: fs

/-- Remove a file from the disk set (`fs.unlinkSync`, guarded by `existsSync`). -/
def fileRemove (fs : List String) (f : String) : List String :=
  fs.filter (fun g => g ≠ f)

/-- `CacheManager.removeCachedHero`: when a metadata entry exists, delete its backing
file (under the entry's stored `filename`) and the metadata record, returning true;
otherwise return false and change nothing. -/
def removeCachedHero (s : CacheState) (heroName : String) : Bool × CacheState :=
  match heroLookup s.heroes heroName with
  | some e =>
    (true, { s with
      files := fileRemove s.files e.filename,
      heroes := heroRemove s.heroes heroName })
  | none => (false, s)

/-- `CacheManager.isCached`: true iff the raw-name metadata entry exists, the file
named by `generateFilename(heroName)` exists, and `now - lastUpdated ≤ TTL`; an
expired entry is removed as a side effect and false is returned. -/
def isCached (s : CacheState) (now : Nat) (heroName : String) : Bool × CacheState :=
  let filename := generateFilename heroName
  match heroLookup s.heroes heroName with
  | none => (false, s)
  | some e =>
    if filename ∈ s.files then
      if s.ttl < now - e.lastUpdated then
        (false, (removeCachedHero s heroName).2)
      else
        (true, s)
    else
      (false, s)

/-- Comparator of the LRU eviction sort: ascending `lastAccessed` (ties keep the
metadata insertion order; JS `Array.prototype.sort` is stable, as is `mergeSort`). -/
def lruLe (a b : String × HeroEntry) : Bool :=
  decide (a.2.lastAccessed ≤ b.2.lastAccessed)

/-- How many entries `enforceMaxCacheSize` removes: `Math.ceil(currentSize * 0.1)`. -/
def evictCount (n : Nat) : Nat := (n + 9) / 10

/-- The hero names evicted when at capacity: the first ~10% of the entries sorted by
`lastAccessed` (oldest access first). -/
def evictKeys (s : CacheState) : List String :=
  (((s.heroes.mergeSort lruLe).take (evictCount s.heroes.length)).map Prod.fst)

/-- `CacheManager.enforceMaxCacheSize`: when `currentSize >= maxCacheSize`, remove the
least-recently-accessed ~10% of entries through `removeCachedHero`. -/
def enforceMaxCacheSize (s : CacheState) : CacheState :=
  if s.maxCacheSize ≤ s.heroes.length then
    (evictKeys s).foldl (fun st n => (removeCachedHero st n).2) s
  else s

/-- `CacheManager.cacheHeroImage`: run the LRU eviction, then write the image file and
overwrite the metadata entry with fresh timestamps and a zeroed access count,
returning true. A failing write (`writeOk = false`, standing for any thrown disk or
serialization error) lands in the catch block: the failure is appended to
`metadata.failedHeroes` and false is returned — the caller never sees an exception,
which the embedding reflects by being a total function. -/
def cacheHeroImage (s : CacheState) (heroName : String) (sizeBytes totalBuilds : Nat)
    (now : Nat) (writeOk : Bool) : Bool × CacheState :=
  let filename := generateFilename heroName
  let s1 := enforceMaxCacheSize s
  if writeOk then
    let entry : HeroEntry :=
      { filename := filename, lastUpdated := now, fileSizeBytes := sizeBytes,
        totalBuilds := totalBuilds, validData := true, accessCount := 0,
        lastAccessed := now }
    (true, { s1 with
      files := fileAdd s1.files filename,
      heroes := heroSet s1.heroes heroName entry })
  else
    (false, { s1 with failedHeroes := s1.failedHeroes ++ [(heroName, now)] })

/-- `CacheManager.getCachedHeroImage`: return the artifact (abstracted to `Unit`) only
if `isCached`; on a hit, bump `accessCount` and `lastAccessed`. -/
def getCachedHeroImage (s : CacheState) (now : Nat) (heroName : String) :
    Option Unit × CacheState :=
  match isCached s now heroName with
  | (false, s1) => (none, s1)
  | (true, s1) =>
    match heroLookup s1.heroes heroName with
    | some e =>
      (some (), { s1 with
        heroes := heroSet s1.heroes heroName
          { e with accessCount := e.accessCount + 1, lastAccessed := now } })
    | none => (none, s1)

/-- The empty cache as built by a fresh `CacheManager`. -/
def emptyCache (maxSize ttl : Nat) : CacheState :=
  { heroes := [], files := [], failedHeroes := [], maxCacheSize := maxSize, ttl := ttl }

/-- The metadata keys are pairwise distinct (a JS object cannot hold duplicate
properties; every reachable state satisfies this). -/
def KeysNodup (s : CacheState) : Prop := (s.heroes.map Prod.fst).Nodup

instance (s : CacheState) : Decidable (KeysNodup s) := by
  unfold KeysNodup; infer_instance

theorem heroLookup_eq_none (l : List (String × HeroEntry)) (n : String) :
    heroLookup l n = none ↔ n ∉ l.map Prod.fst := by
  induction l with
  | nil => simp [heroLookup]
  | cons p rest ih =>
    obtain ⟨k, e⟩ := p
    by_cases h : k = n
    · subst h
      simp [heroLookup]
    · simp only [heroLookup, if_neg h, List.map_cons, List.mem_cons, ih]
      constructor
      · intro hn hor
        rcases hor with h1 | h2
        · exact h h1.symm
        · exact hn h2
      · intro hn h2
        exact hn (Or.inr h2)

theorem heroRemove_eq_filter (l : List (String × HeroEntry)) (n : String)
    (hnd : (l.map Prod.fst).Nodup) :
    heroRemove l n = l.filter (fun p => p.1 ≠ n) := by
  induction l with
  | nil => rfl
  | cons p rest ih =>
    obtain ⟨k, e⟩ := p
    rw [List.map_cons, List.nodup_cons] at hnd
    by_cases h : k = n
    · subst h
      have h1 : heroRemove ((k, e) :: rest) k = rest := by simp [heroRemove]
      have h2 : ((k, e) :: rest).filter (fun p => p.1 ≠ k)
          = rest.filter (fun p => p.1 ≠ k) := by
        simp [List.filter_cons]
      rw [h1, h2, List.filter_eq_self.mpr]
      intro p hp
      simp only [decide_eq_true_eq]
      intro hpk
      have hmem : p.1 ∈ rest.map Prod.fst := List.mem_map_of_mem Prod.fst hp
      rw [hpk] at hmem
      exact hnd.1 hmem
    · have h1 : heroRemove ((k, e) :: rest) n = (k, e) :: heroRemove rest n := by
        simp [heroRemove, h]
      have h2 : ((k, e) :: rest).filter (fun p => p.1 ≠ n)
          = (k, e) :: rest.filter (fun p => p.1 ≠ n) := by
        simp [List.filter_cons, h]
      rw [h1, h2, ih hnd.2]

theorem mem_keys_filter_ne (l : List (String × HeroEntry)) (n k : String) :
    k ∈ (l.filter (fun p => p.1 ≠ n)).map Prod.fst ↔ k ∈ l.map Prod.fst ∧ k ≠ n := by
  simp only [List.mem_map, List.mem_filter, decide_eq_true_eq]
  constructor
  · rintro ⟨p, ⟨hp, hpn⟩, hpk⟩
    exact ⟨⟨p, hp, hpk⟩, hpk ▸ hpn⟩
  · rintro ⟨⟨p, hp, hpk⟩, hkn⟩
    exact ⟨p, ⟨hp, hpk ▸ hkn⟩, hpk⟩

theorem nodup_keys_filter (l : List (String × HeroEntry)) (f : String × HeroEntry → Bool)
    (hnd : (l.map Prod.fst).Nodup) :
    ((l.filter f).map Prod.fst).Nodup :=
  List.Nodup.sublist ((l.filter_sublist).map Prod.fst) hnd

theorem length_filter_ne (l : List (String × HeroEntry)) (n : String)
    (hnd : (l.map Prod.fst).Nodup) (hm : n ∈ l.map Prod.fst) :
    (l.filter (fun p => p.1 ≠ n)).length + 1 = l.length := by
  induction l with
  | nil => simp at hm
  | cons p rest ih =>
    obtain ⟨k, e⟩ := p
    rw [List.map_cons, List.nodup_cons] at hnd
    rw [List.map_cons, List.mem_cons] at hm
    by_cases h : k = n
    · subst h
      have h2 : ((k, e) :: rest).filter (fun p => p.1 ≠ k)
          = rest.filter (fun p => p.1 ≠ k) := by
        simp [List.filter_cons]
      rw [h2, List.filter_eq_self.mpr]
      · simp
      · intro p hp
        simp only [decide_eq_true_eq]
        intro hpk
        have hmem : p.1 ∈ rest.map Prod.fst := List.mem_map_of_mem Prod.fst hp
        rw [hpk] at hmem
        exact hnd.1 hmem
    · have hm2 : n ∈ rest.map Prod.fst := by
        rcases hm with h1 | h2
        · exact absurd h1.symm h
        · exact h2
      have h2 : ((k, e) :: rest).filter (fun p => p.1 ≠ n)
          = (k, e) :: rest.filter (fun p => p.1 ≠ n) := by
        simp [List.filter_cons, h]
      rw [h2, List.length_cons, List.length_cons, ← ih hnd.2 hm2]

theorem removeCachedHero_heroes (s : CacheState) (n : String) (hnd : KeysNodup s) :
    (removeCachedHero s n).2.heroes = s.heroes.filter (fun p => p.1 ≠ n) := by
  unfold removeCachedHero
  cases h : heroLookup s.heroes n with
  | some e =>
    simp only
    exact heroRemove_eq_filter s.heroes n hnd
  | none =>
    simp only
    rw [List.filter_eq_self.mpr]
    intro p hp
    simp only [decide_eq_true_eq]
    intro hpk
    have hmem : p.1 ∈ s.heroes.map Prod.fst := List.mem_map_of_mem Prod.fst hp
    rw [hpk] at hmem
    exact (heroLookup_eq_none s.heroes n).mp h hmem

theorem removeCachedHero_fields (s : CacheState) (n : String) :
    (removeCachedHero s n).2.maxCacheSize = s.maxCacheSize ∧
    (removeCachedHero s n).2.ttl = s.ttl ∧
    (removeCachedHero s n).2.failedHeroes = s.failedHeroes := by
  unfold removeCachedHero
  cases heroLookup s.heroes n <;> exact ⟨rfl, rfl, rfl⟩

/-- The eviction loop of `enforceMaxCacheSize`: remove each listed hero in turn. -/
def removeAll (s : CacheState) (ks : List String) : CacheState :=
  ks.foldl (fun st n => (removeCachedHero st n).2) s

theorem removeAll_heroes (ks : List String) :
    ∀ (s : CacheState), KeysNodup s →
    (removeAll s ks).heroes
      = s.heroes.filter (fun p => p.1 ∉ ks) ∧ KeysNodup (removeAll s ks) := by
  induction ks with
  | nil =>
    intro s hnd
    constructor
    · rw [List.filter_eq_self.mpr]
      · rfl
      · intro p hp
        simp
    · exact hnd
  | cons k ks ih =>
    intro s hnd
    have hstep := removeCachedHero_heroes s k hnd
    have hnd2 : KeysNodup (removeCachedHero s k).2 := by
      unfold KeysNodup
      rw [hstep]
      exact nodup_keys_filter s.heroes _ hnd
    have hrec := ih (removeCachedHero s k).2 hnd2
    have hall : removeAll s (k :: ks) = removeAll (removeCachedHero s k).2 ks := rfl
    constructor
    · rw [hall, hrec.1, hstep, List.filter_filter]
      apply List.filter_congr
      intro p hp
      simp only [List.mem_cons, decide_not]
      by_cases h1 : p.1 = k <;> by_cases h2 : p.1 ∈ ks <;> simp [h1, h2]
    · rw [hall]
      exact hrec.2

theorem removeAll_fields (ks : List String) :
    ∀ (s : CacheState),
    (removeAll s ks).maxCacheSize = s.maxCacheSize ∧
    (removeAll s ks).ttl = s.ttl ∧
    (removeAll s ks).failedHeroes = s.failedHeroes := by
  induction ks with
  | nil => intro s; exact ⟨rfl, rfl, rfl⟩
  | cons k ks ih =>
    intro s
    have h1 := removeCachedHero_fields s k
    have h2 := ih (removeCachedHero s k).2
    have hall : removeAll s (k :: ks) = removeAll (removeCachedHero s k).2 ks := rfl
    rw [hall]
    exact ⟨h2.1.trans h1.1, h2.2.1.trans h1.2.1, h2.2.2.trans h1.2.2⟩

theorem removeAll_length (ks : List String) :
    ∀ (s : CacheState), KeysNodup s → ks.Nodup →
    (∀ k ∈ ks, k ∈ s.heroes.map Prod.fst) →
    (removeAll s ks).heroes.length + ks.length = s.heroes.length := by
  induction ks with
  | nil => intro s _ _ _; simp [removeAll]
  | cons k ks ih =>
    intro s hnd hksnd hmem
    rw [List.nodup_cons] at hksnd
    have hstep := removeCachedHero_heroes s k hnd
    have hnd2 : KeysNodup (removeCachedHero s k).2 := by
      unfold KeysNodup
      rw [hstep]
      exact nodup_keys_filter s.heroes _ hnd
    have hmem2 : ∀ k2 ∈ ks, k2 ∈ (removeCachedHero s k).2.heroes.map Prod.fst := by
      intro k2 hk2
      rw [hstep, mem_keys_filter_ne]
      refine ⟨hmem k2 (List.mem_cons_of_mem _ hk2), ?_⟩
      intro hkk
      exact hksnd.1 (hkk ▸ hk2)
    have hrec := ih (removeCachedHero s k).2 hnd2 hksnd.2 hmem2
    have hall : removeAll s (k :: ks) = removeAll (removeCachedHero s k).2 ks := rfl
    have hlen : (removeCachedHero s k).2.heroes.length + 1 = s.heroes.length := by
      rw [hstep]
      exact length_filter_ne s.heroes k hnd (hmem k (List.mem_cons_self _ _))
    rw [hall, List.length_cons]
    omega

theorem lruLe_trans : ∀ (a b c : String × HeroEntry),
    lruLe a b → lruLe b c → lruLe a c := by
  intro a b c hab hbc
  simp only [lruLe, decide_eq_true_eq] at *
  omega

theorem lruLe_total : ∀ (a b : String × HeroEntry), lruLe a b || lruLe b a := by
  intro a b
  simp only [lruLe]
  rcases Nat.le_total a.2.lastAccessed b.2.lastAccessed with h | h <;> simp [h]

theorem sortedKeys_nodup (s : CacheState) (hnd : KeysNodup s) :
    ((s.heroes.mergeSort lruLe).map Prod.fst).Nodup :=
  (((s.heroes.mergeSort_perm lruLe)).map Prod.fst).nodup_iff.mpr hnd

theorem evictKeys_nodup (s : CacheState) (hnd : KeysNodup s) : (evictKeys s).Nodup := by
  unfold evictKeys
  rw [List.map_take]
  exact List.Nodup.sublist (List.take_sublist _ _) (sortedKeys_nodup s hnd)

theorem evictKeys_mem (s : CacheState) :
    ∀ k ∈ evictKeys s, k ∈ s.heroes.map Prod.fst := by
  intro k hk
  unfold evictKeys at hk
  obtain ⟨p, hp, hpk⟩ := List.mem_map.mp hk
  have hp2 : p ∈ s.heroes.mergeSort lruLe :=
    (List.take_sublist _ _).mem hp
  rw [List.mem_mergeSort] at hp2
  exact hpk ▸ List.mem_map_of_mem Prod.fst hp2

theorem evictCount_le (n : Nat) (h : 1 ≤ n) : evictCount n ≤ n := by
  unfold evictCount
  omega

theorem evictKeys_length (s : CacheState) (h1 : 1 ≤ s.heroes.length) :
    (evictKeys s).length = evictCount s.heroes.length := by
  unfold evictKeys
  rw [List.length_map, List.length_take, List.length_mergeSort]
  exact Nat.min_eq_left (evictCount_le _ h1)

theorem enforce_below (s : CacheState) (h : ¬s.maxCacheSize ≤ s.heroes.length) :
    enforceMaxCacheSize s = s := by
  unfold enforceMaxCacheSize
  rw [if_neg h]

theorem enforce_at_cap (s : CacheState) (hnd : KeysNodup s)
    (hcap : s.maxCacheSize ≤ s.heroes.length) :
    (enforceMaxCacheSize s).heroes
      = s.heroes.filter (fun p => p.1 ∉ evictKeys s) ∧
    KeysNodup (enforceMaxCacheSize s) := by
  unfold enforceMaxCacheSize
  rw [if_pos hcap]
  exact removeAll_heroes (evictKeys s) s hnd

theorem enforce_fields (s : CacheState) :
    (enforceMaxCacheSize s).maxCacheSize = s.maxCacheSize ∧
    (enforceMaxCacheSize s).ttl = s.ttl ∧
    (enforceMaxCacheSize s).failedHeroes = s.failedHeroes := by
  unfold enforceMaxCacheSize
  split
  · exact removeAll_fields (evictKeys s) s
  · exact ⟨rfl, rfl, rfl⟩

theorem enforce_len_at_cap (s : CacheState) (hnd : KeysNodup s)
    (hcap : s.maxCacheSize ≤ s.heroes.length) (hm1 : 1 ≤ s.maxCacheSize) :
    (enforceMaxCacheSize s).heroes.length + evictCount s.heroes.length
      = s.heroes.length := by
  have h1 : 1 ≤ s.heroes.length := le_trans hm1 hcap
  have hlen := removeAll_length (evictKeys s) s hnd (evictKeys_nodup s hnd) (evictKeys_mem s)
  rw [evictKeys_length s h1] at hlen
  unfold enforceMaxCacheSize
  rw [if_pos hcap]
  exact hlen

theorem heroSet_keys (l : List (String × HeroEntry)) (n : String) (e : HeroEntry) :
    (heroSet l n e).map Prod.fst =
      if n ∈ l.map Prod.fst then l.map Prod.fst else l.map Prod.fst ++ [n] := by
  induction l with
  | nil => simp [heroSet]
  | cons p rest ih =>
    obtain ⟨k, e0⟩ := p
    by_cases h : k = n
    · subst h
      simp [heroSet]
    · have hne : ¬(n = k) := fun hnk => h hnk.symm
      simp only [heroSet, if_neg h, List.map_cons, ih, List.mem_cons, hne, false_or]
      split <;> simp

theorem heroSet_length (l : List (String × HeroEntry)) (n : String) (e : HeroEntry) :
    (heroSet l n e).length ≤ l.length + 1 := by
  have h := congrArg List.length (heroSet_keys l n e)
  rw [List.length_map] at h
  rw [h]
  split <;> simp

theorem heroSet_nodup (l : List (String × HeroEntry)) (n : String) (e : HeroEntry)
    (hnd : (l.map Prod.fst).Nodup) : ((heroSet l n e).map Prod.fst).Nodup := by
  rw [heroSet_keys]
  split
  · exact hnd
  · rename_i h
    rw [List.nodup_append]
    refine ⟨hnd, List.nodup_singleton n, ?_⟩
    intro a ha hb
    rw [List.mem_singleton] at hb
    exact h (hb ▸ ha)

/-- The metadata entry written by a successful `cacheHeroImage` call. -/
def freshEntry (heroName : String) (sz tb now : Nat) : HeroEntry :=
  { filename := generateFilename heroName, lastUpdated := now, fileSizeBytes := sz,
    totalBuilds := tb, validData := true, accessCount := 0, lastAccessed := now }

theorem cacheHeroImage_heroes_ok (s : CacheState) (heroName : String)
    (sz tb now : Nat) :
    (cacheHeroImage s heroName sz tb now true).2.heroes
      = heroSet (enforceMaxCacheSize s).heroes heroName (freshEntry heroName sz tb now) :=
  rfl

theorem cacheHeroImage_heroes_fail (s : CacheState) (heroName : String)
    (sz tb now : Nat) :
    (cacheHeroImage s heroName sz tb now false).2.heroes
      = (enforceMaxCacheSize s).heroes :=
  rfl

theorem cacheHeroImage_fields (s : CacheState) (heroName : String)
    (sz tb now : Nat) (wOk : Bool) :
    (cacheHeroImage s heroName sz tb now wOk).2.maxCacheSize = s.maxCacheSize ∧
    (cacheHeroImage s heroName sz tb now wOk).2.ttl = s.ttl := by
  have h := enforce_fields s
  cases wOk <;> exact ⟨h.1, h.2.1⟩

theorem cacheHeroImage_capacity (s : CacheState) (heroName : String)
    (sz tb now : Nat) (wOk : Bool) (hnd : KeysNodup s)
    (hm1 : 1 ≤ s.maxCacheSize) (hlen : s.heroes.length ≤ s.maxCacheSize) :
    (cacheHeroImage s heroName sz tb now wOk).2.heroes.length ≤ s.maxCacheSize ∧
    KeysNodup (cacheHeroImage s heroName sz tb now wOk).2 := by
  by_cases hcap : s.maxCacheSize ≤ s.heroes.length
  · have h1 : 1 ≤ s.heroes.length := le_trans hm1 hcap
    have hev : 1 ≤ evictCount s.heroes.length := by
      unfold evictCount
      omega
    have hlen1 := enforce_len_at_cap s hnd hcap hm1
    have hnd1 := (enforce_at_cap s hnd hcap).2
    cases wOk
    · rw [show (cacheHeroImage s heroName sz tb now false).2.heroes.length
          = (enforceMaxCacheSize s).heroes.length from
          congrArg List.length (cacheHeroImage_heroes_fail s heroName sz tb now)]
      refine ⟨by omega, ?_⟩
      unfold KeysNodup
      rw [cacheHeroImage_heroes_fail]
      exact hnd1
    · have hsl := heroSet_length (enforceMaxCacheSize s).heroes heroName
        (freshEntry heroName sz tb now)
      rw [show (cacheHeroImage s heroName sz tb now true).2.heroes.length
          = (heroSet (enforceMaxCacheSize s).heroes heroName
              (freshEntry heroName sz tb now)).length from
          congrArg List.length (cacheHeroImage_heroes_ok s heroName sz tb now)]
      refine ⟨by omega, ?_⟩
      unfold KeysNodup
      rw [cacheHeroImage_heroes_ok]
      exact heroSet_nodup _ _ _ hnd1
  · have hen := enforce_below s hcap
    cases wOk
    · rw [show (cacheHeroImage s heroName sz tb now false).2.heroes.length
          = (enforceMaxCacheSize s).heroes.length from
          congrArg List.length (cacheHeroImage_heroes_fail s heroName sz tb now)]
      rw [hen]
      refine ⟨by omega, ?_⟩
      unfold KeysNodup
      rw [cacheHeroImage_heroes_fail, hen]
      exact hnd
    · have hsl := heroSet_length s.heroes heroName (freshEntry heroName sz tb now)
      rw [show (cacheHeroImage s heroName sz tb now true).2.heroes.length
          = (heroSet (enforceMaxCacheSize s).heroes heroName
              (freshEntry heroName sz tb now)).length from
          congrArg List.length (cacheHeroImage_heroes_ok s heroName sz tb now)]
      rw [hen]
      refine ⟨by omega, ?_⟩
      unfold KeysNodup
      rw [cacheHeroImage_heroes_ok, hen]
      exact heroSet_nodup _ _ _ hnd

theorem foldInsert_capacity (names : List String) :
    ∀ (s : CacheState), KeysNodup s → 1 ≤ s.maxCacheSize →
    s.heroes.length ≤ s.maxCacheSize →
    (names.foldl (fun st n => (cacheHeroImage st n 1 0 0 true).2) s).heroes.length
      ≤ s.maxCacheSize := by
  induction names with
  | nil => intro s _ _ h; exact h
  | cons n ns ih =>
    intro s hnd hm1 hlen
    have hstep := cacheHeroImage_capacity s n 1 0 0 true hnd hm1 hlen
    have hmax := (cacheHeroImage_fields s n 1 0 0 true).1
    have hrec := ih (cacheHeroImage s n 1 0 0 true).2 hstep.2 (by omega) (by omega)
    calc ((n :: ns).foldl (fun st n => (cacheHeroImage st n 1 0 0 true).2) s).heroes.length
        = (ns.foldl (fun st n => (cacheHeroImage st n 1 0 0 true).2)
            (cacheHeroImage s n 1 0 0 true).2).heroes.length := rfl
      _ ≤ (cacheHeroImage s n 1 0 0 true).2.maxCacheSize := hrec
      _ = s.maxCacheSize := hmax

theorem evicted_le_survivors (s : CacheState) (hnd : KeysNodup s)
    (hcap : s.maxCacheSize ≤ s.heroes.length) :
    ∀ p ∈ (s.heroes.mergeSort lruLe).take (evictCount s.heroes.length),
    ∀ q ∈ (enforceMaxCacheSize s).heroes,
    p.2.lastAccessed ≤ q.2.lastAccessed := by
  intro p hp q hq
  have hsorted := @List.sorted_mergeSort _ lruLe lruLe_trans lruLe_total s.heroes
  have hq2 : q ∈ s.heroes.filter (fun r => r.1 ∉ evictKeys s) :=
    (enforce_at_cap s hnd hcap).1 ▸ hq
  have hqmem := List.mem_filter.mp hq2
  have hqev : q.1 ∉ evictKeys s := by simpa using hqmem.2
  have hqsorted : q ∈ s.heroes.mergeSort lruLe := List.mem_mergeSort.mpr hqmem.1
  have hsplit := List.take_append_drop (evictCount s.heroes.length)
    (s.heroes.mergeSort lruLe)
  have hqdrop : q ∈ (s.heroes.mergeSort lruLe).drop (evictCount s.heroes.length) := by
    rcases List.mem_append.mp (hsplit ▸ hqsorted) with h1 | h2
    · exact absurd (List.mem_map_of_mem Prod.fst h1) hqev
    · exact h2
  have hpw : (((s.heroes.mergeSort lruLe).take (evictCount s.heroes.length))
      ++ ((s.heroes.mergeSort lruLe).drop (evictCount s.heroes.length))).Pairwise
        (fun a b => lruLe a b) := by
    rw [hsplit]
    exact hsorted
  have hle := (List.pairwise_append.mp hpw).2.2 p hp q hqdrop
  simpa [lruLe] using hle

/-- Claim C5: for every sequence of cache insertions the metadata entry count never
exceeds the configured maximum (`maxCacheSize`, ≥ 1 in every constructible manager
since `options.maxCacheSize || 500` is never 0): inserting `maxSize + 1` (indeed, any
number of) distinct keys from the empty cache leaves at most `maxSize` entries, and
when an insertion occurs at or above capacity the evicted entries are exactly the
first `⌈size/10⌉` entries of the `lastAccessed`-sorted order — each evicted entry's
`lastAccessed` is ≤ every survivor's — removed before the new entry is admitted. -/
theorem claim_C5_cache_capacity_lru :
    (∀ (s : CacheState) (heroName : String) (sz tb now : Nat) (wOk : Bool),
      KeysNodup s → 1 ≤ s.maxCacheSize → s.heroes.length ≤ s.maxCacheSize →
      (cacheHeroImage s heroName sz tb now wOk).2.heroes.length ≤ s.maxCacheSize) ∧
    (∀ (names : List String) (m ttl : Nat), 1 ≤ m →
      ((names.foldl (fun st n => (cacheHeroImage st n 1 0 0 true).2)
        (emptyCache m ttl)).heroes.length ≤ m)) ∧
    (∀ (s : CacheState), KeysNodup s → s.maxCacheSize ≤ s.heroes.length →
        1 ≤ s.maxCacheSize →
      (enforceMaxCacheSize s).heroes = s.heroes.filter (fun p => p.1 ∉ evictKeys s) ∧
      (enforceMaxCacheSize s).heroes.length + evictCount s.heroes.length
        = s.heroes.length ∧
      (∀ p ∈ (s.heroes.mergeSort lruLe).take (evictCount s.heroes.length),
        ∀ q ∈ (enforceMaxCacheSize s).heroes, p.2.lastAccessed ≤ q.2.lastAccessed)) ∧
    (∀ (s : CacheState) (heroName : String) (sz tb now : Nat),
      (cacheHeroImage s heroName sz tb now true).2.heroes
        = heroSet (enforceMaxCacheSize s).heroes heroName
            (freshEntry heroName sz tb now)) := by
  refine ⟨?_, ?_, ?_, cacheHeroImage_heroes_ok⟩
  · intro s heroName sz tb now wOk hnd hm1 hlen
    exact (cacheHeroImage_capacity s heroName sz tb now wOk hnd hm1 hlen).1
  · intro names m ttl hm1
    exact foldInsert_capacity names (emptyCache m ttl) (by simp [emptyCache, KeysNodup])
      hm1 (by simp [emptyCache])
  · intro s hnd hcap hm1
    exact ⟨(enforce_at_cap s hnd hcap).1, enforce_len_at_cap s hnd hcap hm1,
      evicted_le_survivors s hnd hcap⟩

/-- A concrete demo entry for the witnesses. -/
def demoEntry (fn : String) (acc : Nat) : HeroEntry :=
  { filename := fn, lastUpdated := 0, fileSizeBytes := 1, totalBuilds := 0,
    validData := true, accessCount := 0, lastAccessed := acc }

/-- A full cache (3 entries, maximum 3) whose least-recently-accessed entry is "b". -/
def fullCache3 : CacheState :=
  { heroes := [("a", demoEntry "a" 5), ("b", demoEntry "b" 1), ("c", demoEntry "c" 9)],
    files := ["a", "b", "c"], failedHeroes := [], maxCacheSize := 3, ttl := 100 }

/-- Witness for C5 at the concrete 3-entry cache at capacity 3: a fourth insertion
stays within the bound, four insertions into an empty 3-cache leave ≤ 3 entries, and
the eviction equations hold with the least-recently-accessed entry ("b") evicted
before the new entry is admitted. -/
theorem claim_C5_cache_capacity_lru_witness :
    ((cacheHeroImage fullCache3 "d" 1 0 9 true).2.heroes.length
      ≤ fullCache3.maxCacheSize) ∧
    ((["a", "b", "c", "d"].foldl (fun st n => (cacheHeroImage st n 1 0 0 true).2)
      (emptyCache 3 7)).heroes.length ≤ 3) ∧
    ((enforceMaxCacheSize fullCache3).heroes
      = fullCache3.heroes.filter (fun p => p.1 ∉ evictKeys fullCache3) ∧
     (enforceMaxCacheSize fullCache3).heroes.length
       + evictCount fullCache3.heroes.length = fullCache3.heroes.length ∧
     (∀ p ∈ (fullCache3.heroes.mergeSort lruLe).take
         (evictCount fullCache3.heroes.length),
       ∀ q ∈ (enforceMaxCacheSize fullCache3).heroes,
         p.2.lastAccessed ≤ q.2.lastAccessed)) ∧
    ((cacheHeroImage fullCache3 "d" 1 0 9 true).2.heroes
      = heroSet (enforceMaxCacheSize fullCache3).heroes "d" (freshEntry "d" 1 0 9)) :=
  ⟨claim_C5_cache_capacity_lru.1 fullCache3 "d" 1 0 9 true (by decide) (by decide)
      (by decide),
   claim_C5_cache_capacity_lru.2.1 ["a", "b", "c", "d"] 3 7 (by decide),
   claim_C5_cache_capacity_lru.2.2.1 fullCache3 (by decide) (by decide) (by decide),
   claim_C5_cache_capacity_lru.2.2.2 fullCache3 "d" 1 0 9⟩

/-- Claim C6: `isCached(key)` returns true iff a metadata entry exists, its backing
artifact file exists, and `now - lastUpdated ≤ TTL`; in particular it is false
whenever `lastUpdated` is older than `now - TTL`, and discovering such an expired
entry removes it — both the metadata record and the backing file — as a side effect. -/
theorem claim_C6_isCached_ttl :
    (∀ (s : CacheState) (now : Nat) (heroName : String),
      ((isCached s now heroName).1 = true ↔
        ∃ e, heroLookup s.heroes heroName = some e ∧
          generateFilename heroName ∈ s.files ∧ now - e.lastUpdated ≤ s.ttl)) ∧
    (∀ (s : CacheState) (now : Nat) (heroName : String) (e : HeroEntry),
      KeysNodup s → heroLookup s.heroes heroName = some e →
      generateFilename heroName ∈ s.files → s.ttl < now - e.lastUpdated →
      (isCached s now heroName).1 = false ∧
      heroLookup ((isCached s now heroName).2).heroes heroName = none ∧
      ((isCached s now heroName).2).files = fileRemove s.files e.filename) := by
  constructor
  · intro s now heroName
    unfold isCached
    cases hl : heroLookup s.heroes heroName with
    | none => simp
    | some e =>
      dsimp only
      by_cases hf : generateFilename heroName ∈ s.files
      · rw [if_pos hf]
        by_cases hex : s.ttl < now - e.lastUpdated
        · rw [if_pos hex]
          simp only [Bool.false_eq_true, false_iff]
          rintro ⟨e2, he2, -, hle⟩
          cases he2
          omega
        · rw [if_neg hex]
          simp only [true_iff]
          exact ⟨e, rfl, hf, by omega⟩
      · rw [if_neg hf]
        simp only [Bool.false_eq_true, false_iff]
        rintro ⟨e2, he2, hf2, -⟩
        exact hf hf2
  · intro s now heroName e hnd hl hf hex
    have hstate : isCached s now heroName = (false, (removeCachedHero s heroName).2) := by
      unfold isCached
      rw [hl]
      dsimp only
      rw [if_pos hf, if_pos hex]
    have hrem : (removeCachedHero s heroName).2
        = { s with
            files := fileRemove s.files e.filename,
            heroes := heroRemove s.heroes heroName } := by
      unfold removeCachedHero
      rw [hl]
    refine ⟨by rw [hstate], ?_, by rw [hstate, hrem]⟩
    rw [hstate, hrem]
    simp only
    rw [heroRemove_eq_filter s.heroes heroName hnd, heroLookup_eq_none,
      mem_keys_filter_ne]
    simp

/-- A cache holding one entry ("alpha") whose `lastUpdated` is older than
`now - TTL` at the observation time 201 (TTL 100, written at 100). -/
def expiredCache : CacheState :=
  { heroes := [("alpha", freshEntry "alpha" 10 3 100)],
    files := ["alpha"], failedHeroes := [], maxCacheSize := 500, ttl := 100 }

/-- Witness for C6: at time 201 the entry written at time 100 with TTL 100 is expired
(201 - 100 = 101 > 100): `isCached` answers false and removes both the metadata
record and the file; at time 200 it still answers true. -/
theorem claim_C6_isCached_ttl_witness :
    ((isCached expiredCache 200 "alpha").1 = true ↔
      ∃ e, heroLookup expiredCache.heroes "alpha" = some e ∧
        generateFilename "alpha" ∈ expiredCache.files ∧
        200 - e.lastUpdated ≤ expiredCache.ttl) ∧
    ((isCached expiredCache 201 "alpha").1 = false ∧
     heroLookup ((isCached expiredCache 201 "alpha").2).heroes "alpha" = none ∧
     ((isCached expiredCache 201 "alpha").2).files
       = fileRemove expiredCache.files (freshEntry "alpha" 10 3 100).filename) :=
  ⟨claim_C6_isCached_ttl.1 expiredCache 200 "alpha",
   claim_C6_isCached_ttl.2 expiredCache 201 "alpha" (freshEntry "alpha" 10 3 100)
     (by decide) (by decide) (by decide) (by decide)⟩

/-- JS `String.prototype.trim`: strip leading and trailing whitespace. -/
def jsTrim (l : List Char) : List Char :=
  ((l.dropWhile jsWhitespace).reverse.dropWhile jsWhitespace).reverse

/-- The deduplication key: `heroName.toLowerCase().trim()`
(briar-bot.js line 314). Only the dedup map uses this normalization; the cache does
not. -/
def normalizeHeroKey (heroName : String) : String :=
  String.mk (jsTrim (heroName.toList.map Char.toLower))

/-- The cache state after the pipeline cached entity "alpha" (10 KB artifact, 3
builds) at time 50, with TTL 1000 and capacity 500. -/
def c7State : CacheState := (cacheHeroImage (emptyCache 500 1000) "alpha" 10 3 50 true).2

/-- Claim C7 (counterexample): with "alpha" cached and unexpired, a later request for
"Alpha " (different case, trailing space) — the same entity under normalization — is
NOT served from the cache: the metadata map is keyed by the raw hero-name string, so
`isCached` misses, `getCachedHeroImage` returns null, and the pipeline proceeds to a
second upstream call. -/
theorem claim_C7_counterexample :
    normalizeHeroKey "Alpha " = normalizeHeroKey "alpha" ∧
    (isCached c7State 60 "alpha").1 = true ∧
    (isCached c7State 60 "Alpha ").1 = false ∧
    (getCachedHeroImage c7State 60 "Alpha ").1 = none := by
  refine ⟨?_, ?_, ?_, ?_⟩ <;> decide

/-- Claim C7 (amended): the dedup key is normalized (lowercase + trim), but the cache
metadata lookup is by the exact raw hero-name string: a request whose raw name is not
a metadata key always misses (even when a case/whitespace variant of it is cached),
while a request with the identical raw string, backing file present and TTL not
exceeded, is served from the cache. -/
theorem claim_C7_raw_key_cache :
    (∀ (s : CacheState) (now : Nat) (heroName : String),
      heroName ∉ s.heroes.map Prod.fst → (isCached s now heroName).1 = false) ∧
    (∀ (s : CacheState) (now : Nat) (heroName : String) (e : HeroEntry),
      heroLookup s.heroes heroName = some e →
      generateFilename heroName ∈ s.files → now - e.lastUpdated ≤ s.ttl →
      (isCached s now heroName).1 = true) ∧
    (normalizeHeroKey "Alpha " = normalizeHeroKey "alpha" ∧
      (isCached c7State 60 "alpha").1 = true ∧
      (isCached c7State 60 "Alpha ").1 = false) := by
  refine ⟨?_, ?_, by decide, by decide, by decide⟩
  · intro s now heroName hmem
    unfold isCached
    rw [(heroLookup_eq_none s.heroes heroName).mpr hmem]
  · intro s now heroName e hl hf hle
    unfold isCached
    rw [hl]
    dsimp only
    rw [if_pos hf, if_neg (by omega)]

/-- Witness for C7's amended statement: "Alpha " is not a key of the store that
cached "alpha", so it misses; the identical raw string "alpha" with its file present
and 10ms of age against a TTL of 1000 hits. -/
theorem claim_C7_raw_key_cache_witness :
    (isCached c7State 60 "Alpha ").1 = false ∧
    (isCached c7State 60 "alpha").1 = true :=
  ⟨claim_C7_raw_key_cache.1 c7State 60 "Alpha " (by decide),
   claim_C7_raw_key_cache.2.1 c7State 60 "alpha" (freshEntry "alpha" 10 3 50)
     (by decide) (by decide) (by decide)⟩

/-- The store after 101 consecutive failing writes (each write attempt `i` fails,
for i = 0..100). -/
def failedRun : CacheState :=
  (List.range 101).foldl (fun st i => (cacheHeroImage st "h" 1 0 i false).2)
    (emptyCache 500 100)

set_option maxRecDepth 10000 in
/-- Claim C10 (counterexample): the failure list is not bounded — 101 consecutive
failing writes leave all 101 failure entries in `metadata.failedHeroes`; nothing ever
trims the list (only a full cache reset clears it). -/
theorem claim_C10_counterexample : failedRun.failedHeroes.length = 101 := by decide

/-- Claim C10 (amended): a failing cache write returns false and never throws — the
embedding is a total function because every source path returns — and each failure is
appended to the store's `failedHeroes` list, which grows by exactly one entry per
failure and is never trimmed, so it is unbounded rather than bounded. -/
theorem claim_C10_failure_recording :
    ∀ (s : CacheState) (heroName : String) (sz tb now : Nat),
      (cacheHeroImage s heroName sz tb now false).1 = false ∧
      (cacheHeroImage s heroName sz tb now false).2.failedHeroes
        = s.failedHeroes ++ [(heroName, now)] ∧
      (cacheHeroImage s heroName sz tb now false).2.failedHeroes.length
        = s.failedHeroes.length + 1 := by
  intro s heroName sz tb now
  have hfields := enforce_fields s
  refine ⟨rfl, ?_, ?_⟩
  · show (enforceMaxCacheSize s).failedHeroes ++ [(heroName, now)]
      = s.failedHeroes ++ [(heroName, now)]
    rw [hfields.2.2]
  · show ((enforceMaxCacheSize s).failedHeroes ++ [(heroName, now)]).length
      = s.failedHeroes.length + 1
    rw [hfields.2.2, List.length_append, List.length_singleton]

end BriarBot
